import Mathlib

/-!
# WindowClsDataLayer (src/caffe/layers/window_cls_data_layer.cpp)

A shallow embedding of the layer's manifest loader (`DataLayerSetUp`), of the
per-item work of `InternalThreadEntry` (label surface, padding, cropping,
label-vector derivation) and of its manifest cursor, followed by the theorems
that settle the properties stated about them.

Conventions.
* C++ `int` values are integers (`Int`). The 32-bit range is modelled where it
  decides an outcome: in the text-to-`int` conversion of the manifest reader, and
  in the window arithmetic of lines 224-247, which is given twice, in exact
  integer arithmetic (`padAndCrop`) and in 32-bit arithmetic (`padAndCropInt32`).
* A `CHECK_*` macro that fails is the result `Failure.fatal`; an access outside
  a container is `Failure.outOfBounds`.
* Memory reached through a raw pointer is a `Buffer`: one cell per integer
  offset from the pointer, so that a write before or after the intended array
  is observable.
-/

namespace WindowClsDataLayer

/-- The ways an operation of the layer can stop early. -/
inductive Failure where
  /-- a glog `CHECK` failed: the process aborts -/
  | fatal
  /-- a container was indexed outside its bounds (undefined behaviour in C++) -/
  | outOfBounds
  /-- an OpenCV assertion failed: `cv::Exception` is thrown and nothing catches it -/
  | cvException
  deriving DecidableEq, Repr

instance {ε α : Type} [DecidableEq ε] [DecidableEq α] : DecidableEq (Except ε α) :=
  fun a b =>
    match a, b with
    | .ok x, .ok y => if h : x = y then isTrue (by rw [h]) else isFalse (fun e => h (by cases e; rfl))
    | .error x, .error y =>
      if h : x = y then isTrue (by rw [h]) else isFalse (fun e => h (by cases e; rfl))
    | .ok _, .error _ => isFalse (fun e => by cases e)
    | .error _, .ok _ => isFalse (fun e => by cases e)

/-! ## Label-vector derivation (lines 275-289) -/

/-- Cells addressed by their offset from a `Dtype*`. -/
abbrev Buffer := Int → Int

/-- The assignment `p[i] = v`. -/
def Buffer.write (p : Buffer) (i v : Int) : Buffer :=
  fun j => if j = i then v else p j

/-- Modelled from the spec: `caffe_set` is declared in caffe/util/math_functions.hpp,
which is not among the sources; the spec has the label vector "sized `label_dim`
and zero-initialized before accumulation", so `caffe_set n alpha y` stores `alpha`
in the cells `0 .. n-1` of `y` and leaves every other cell alone. -/
def caffe_set (n : Int) (alpha : Int) (y : Buffer) : Buffer :=
  fun j => if 0 ≤ j ∧ j < n then alpha else y j

/-- The loop `for (i = 0; i < pixel_cnt; i++)` of lines 283-289 over the pixels of
the final label crop, each already converted to `int` (`int pixel_label =
one_seg_data[i]`). `none` is the failure of `CHECK_LT(pixel_label-1, label_dim_)`. -/
def labelLoop (label_dim : Int) : List Int → Buffer → Option Buffer
  | [], one_label_data => some one_label_data
  | pixel_label :: rest, one_label_data =>
    if pixel_label ≠ 0 ∧ pixel_label ≠ 255 then
      if pixel_label - 1 < label_dim then
        labelLoop label_dim rest (one_label_data.write (pixel_label - 1) 1)
      else none
    else labelLoop label_dim rest one_label_data

/-- Lines 282-289: `caffe_set(label_dim_, Dtype(0), one_label_data)` followed by the
pixel loop. -/
def computeLabel (label_dim : Int) (one_seg_data : List Int) (one_label_data : Buffer) :
    Option Buffer :=
  labelLoop label_dim one_seg_data (caffe_set label_dim 0 one_label_data)

/-- The `label_dim` cells of the label blob of one item, as a list. -/
def labelVector (label_dim : Int) (one_label_data : Buffer) : List Int :=
  (List.range label_dim.toNat).map (fun (j : Nat) => one_label_data (j : Int))

/-- What `computeLabel` leaves in the label blob of one item; `none` when it aborted. -/
def labelOf (label_dim : Int) (one_seg_data : List Int) : Option (List Int) :=
  (computeLabel label_dim one_seg_data (fun _ => 0)).map (labelVector label_dim)

/-- Pixel values the derivation skips: background `0` and "don't care" `255`. -/
def skipped (v : Int) : Prop := v = 0 ∨ v = 255

instance (v : Int) : Decidable (skipped v) := by unfold skipped; infer_instance

/-! ## Images, padding and cropping (lines 200-249) -/

/-- A raster as OpenCV's `cv::Mat` presents it: `rows`, `cols` and the pixels row by
row. The pixel type is a parameter: a colour triple or a grey value for the image, a
label value for the label surface. -/
structure Mat (α : Type) where
  rows : Nat
  cols : Nat
  data : List (List α)
  deriving DecidableEq, Repr

/-- The raster holds exactly `rows` rows of `cols` pixels each. -/
def Mat.WellFormed {α : Type} (m : Mat α) : Prop :=
  m.data.length = m.rows ∧ ∀ row ∈ m.data, row.length = m.cols

instance {α : Type} (m : Mat α) : Decidable m.WellFormed := by
  unfold Mat.WellFormed; infer_instance

/-- The pixel at row `r`, column `c`, if the raster has one there. -/
def Mat.pixel {α : Type} (m : Mat α) (r c : Nat) : Option α :=
  (m.data[r]?).bind (fun row => row[c]?)

/-- The pixel at the integer position (row `r`, column `c`); `none` outside the raster,
in particular at a negative coordinate. -/
def Mat.pixelAt {α : Type} (m : Mat α) (r c : Int) : Option α :=
  if 0 ≤ r ∧ 0 ≤ c then m.pixel r.toNat c.toNat else none

/-- All pixels in row-major order, the order in which a blob stores them. -/
def Mat.pixels {α : Type} (m : Mat α) : List α := m.data.flatten

/-- The constructor `cv::Mat(rows, cols, type, cv::Scalar(v))`: every pixel is `v`. -/
def Mat.uniform {α : Type} (rows cols : Nat) (v : α) : Mat α :=
  { rows := rows, cols := cols, data := List.replicate rows (List.replicate cols v) }

/-- OpenCV's `cv::copyMakeBorder(src, dst, top, bottom, left, right, BORDER_CONSTANT,
value)`: `src` framed by `top`, `bottom`, `left` and `right` pixels of `value`. -/
def copyMakeBorder {α : Type} (src : Mat α) (top bottom left right : Nat) (value : α) : Mat α :=
  { rows := top + src.rows + bottom
    cols := left + src.cols + right
    data :=
      List.replicate top (List.replicate (left + src.cols + right) value)
        ++ src.data.map (fun row => List.replicate left value ++ row ++ List.replicate right value)
        ++ List.replicate bottom (List.replicate (left + src.cols + right) value) }

/-- OpenCV's `cv::Rect(x, y, width, height)`. -/
structure Rect where
  x : Int
  y : Int
  width : Int
  height : Int
  deriving DecidableEq, Repr

/-- OpenCV's `cv::Mat::operator()(const Rect&)`: the sub-raster with top-left corner
`(roi.x, roi.y)`. OpenCV asserts that the rectangle lies inside the raster; the
assertion failing is `Failure.cvException`. -/
def Mat.roi {α : Type} (m : Mat α) (roi : Rect) : Except Failure (Mat α) :=
  if 0 ≤ roi.x ∧ 0 ≤ roi.width ∧ roi.x + roi.width ≤ m.cols ∧
      0 ≤ roi.y ∧ 0 ≤ roi.height ∧ roi.y + roi.height ≤ m.rows then
    .ok { rows := roi.height.toNat
          cols := roi.width.toNat
          data := ((m.data.drop roi.y.toNat).take roi.height.toNat).map
                    (fun row => (row.drop roi.x.toNat).take roi.width.toNat) }
  else .error .cvException

/-- The generated enum `ImageDataParameter_LabelType`. -/
inductive LabelType where
  | NONE
  | PIXEL
  | IMAGE
  deriving DecidableEq, Repr

/-- Lines 200-217: the label surface `cv_seg` of one item. In PIXEL mode it is the
decoded mask `decoded_seg` (the result of `ReadImageToCVMatNearest`), in IMAGE mode a
raster of the image's size filled with `label` (the pixel of
`cv::Scalar(atoi(segfn))`), otherwise one filled with `ignore_label`. -/
def labelSurface {α β : Type} (label_type : LabelType) (cv_img : Mat α) (decoded_seg : Mat β)
    (label : β) (ignore_label : β) : Mat β :=
  if label_type = LabelType.PIXEL then decoded_seg
  else if label_type = LabelType.IMAGE then Mat.uniform cv_img.rows cv_img.cols label
  else Mat.uniform cv_img.rows cv_img.cols ignore_label

/-- The four margins of lines 224-227. -/
structure Padding where
  pad_x1 : Int
  pad_y1 : Int
  pad_x2 : Int
  pad_y2 : Int
  deriving DecidableEq, Repr

/-- Lines 224-227 in exact integer arithmetic, that is, as long as no `int` overflows:
`pad_x1 = max(0, -x1)`, `pad_y1 = max(0, -y1)`, `pad_x2 = max(0, x2 - cols + 1)`,
`pad_y2 = max(0, y2 - rows + 1)`. `computePaddingInt32` is the 32-bit form. -/
def computePadding (cols rows : Nat) (x1 y1 x2 y2 : Int) : Padding :=
  { pad_x1 := max 0 (-x1)
    pad_y1 := max 0 (-y1)
    pad_x2 := max 0 (x2 - cols + 1)
    pad_y2 := max 0 (y2 - rows + 1) }

/-- Lines 228-235: both surfaces are framed when some margin is positive, the image
with `zero` (`cv::Scalar(0,0,0)`), the label surface with `ignore_label`. -/
def applyPadding {α β : Type} (cv_img : Mat α) (cv_seg : Mat β) (zero : α) (ignore_label : β)
    (p : Padding) : Mat α × Mat β :=
  if p.pad_x1 > 0 ∨ p.pad_x2 > 0 ∨ p.pad_y1 > 0 ∨ p.pad_y2 > 0 then
    (copyMakeBorder cv_img p.pad_y1.toNat p.pad_y2.toNat p.pad_x1.toNat p.pad_x2.toNat zero,
     copyMakeBorder cv_seg p.pad_y1.toNat p.pad_y2.toNat p.pad_x1.toNat p.pad_x2.toNat ignore_label)
  else (cv_img, cv_seg)

/-- Lines 241-244 on the shifted window: `CHECK_GT(x1, -1)`, `CHECK_GT(y1, -1)`,
`CHECK_LT(x2, cv_img.cols)`, `CHECK_LT(y2, cv_img.rows)`; `true` when all four pass. -/
def boundChecks (cols rows : Nat) (x1 y1 x2 y2 : Int) : Bool :=
  decide (x1 > -1) && decide (y1 > -1) && decide (x2 < cols) && decide (y2 < rows)

/-- Lines 219-247: pad both surfaces, shift the window by `(pad_x1, pad_y1)`, run the
four bound checks against the padded image and build the crop rectangle. -/
def padAndShift {α β : Type} (cv_img : Mat α) (cv_seg : Mat β) (zero : α) (ignore_label : β)
    (x1 y1 x2 y2 : Int) : Except Failure (Mat α × Mat β × Rect) :=
  let p := computePadding cv_img.cols cv_img.rows x1 y1 x2 y2
  let padded := applyPadding cv_img cv_seg zero ignore_label p
  let x1 := x1 + p.pad_x1
  let x2 := x2 + p.pad_x1
  let y1 := y1 + p.pad_y1
  let y2 := y2 + p.pad_y1
  if boundChecks padded.1.cols padded.1.rows x1 y1 x2 y2 then
    .ok (padded.1, padded.2, { x := x1, y := y1, width := x2 - x1 + 1, height := y2 - y1 + 1 })
  else .error .fatal

/-- Lines 219-249: the image crop and the label crop of one item, before any resize. -/
def padAndCrop {α β : Type} (cv_img : Mat α) (cv_seg : Mat β) (zero : α) (ignore_label : β)
    (x1 y1 x2 y2 : Int) : Except Failure (Mat α × Mat β) :=
  match padAndShift cv_img cv_seg zero ignore_label x1 y1 x2 y2 with
  | .error e => .error e
  | .ok (img, seg, roi) =>
    match img.roi roi with
    | .error e => .error e
    | .ok cv_cropped_img =>
      match seg.roi roi with
      | .error e => .error e
      | .ok cv_cropped_seg => .ok (cv_cropped_img, cv_cropped_seg)

/-! ## The manifest cursor of `InternalThreadEntry` (lines 177-301) -/

/-- The members of the layer the cursor logic touches: the manifest `lines_`, the
cursor `lines_id_` and the generator `prefetch_rng_` the shuffle draws from. -/
structure Cursor (α G : Type) where
  lines_ : List α
  lines_id_ : Nat
  prefetch_rng_ : G

/-- `ShuffleImages` (lines 142-147): `caffe::shuffle`, which is not among the sources,
is the parameter `shuffle`; it returns the reordered manifest and the advanced
generator. -/
def ShuffleImages {α G : Type} (shuffle : G → List α → List α × G) (s : Cursor α G) :
    Cursor α G :=
  { lines_ := (shuffle s.prefetch_rng_ s.lines_).1
    lines_id_ := s.lines_id_
    prefetch_rng_ := (shuffle s.prefetch_rng_ s.lines_).2 }

/-- One iteration of the loop of line 180, reduced to what it does with the manifest:
`CHECK_GT(lines_size, lines_id_)`, the use of `lines_[lines_id_]` (returned), then lines
292-300: `lines_id_++` and, once `lines_id_ >= lines_size`, the reset to 0 followed by
`ShuffleImages()` when `shuffle` is configured. -/
def itemStep {α G : Type} (shuffle : G → List α → List α × G) (shuffleEnabled : Bool)
    (lines_size : Nat) (s : Cursor α G) : Except Failure (α × Cursor α G) :=
  if lines_size > s.lines_id_ then
    match s.lines_[s.lines_id_]? with
    | none => .error .outOfBounds
    | some item =>
      if s.lines_id_ + 1 ≥ lines_size then
        if shuffleEnabled then
          .ok (item, ShuffleImages shuffle { s with lines_id_ := 0 })
        else .ok (item, { s with lines_id_ := 0 })
      else .ok (item, { s with lines_id_ := s.lines_id_ + 1 })
  else .error .fatal

/-- A run of `k` consecutive iterations: the records used, in order, and the state left. -/
def itemSteps {α G : Type} (shuffle : G → List α → List α × G) (shuffleEnabled : Bool)
    (lines_size : Nat) : Nat → Cursor α G → Except Failure (List α × Cursor α G)
  | 0, s => .ok ([], s)
  | k + 1, s =>
    match itemStep shuffle shuffleEnabled lines_size s with
    | .error e => .error e
    | .ok (item, s1) =>
      match itemSteps shuffle shuffleEnabled lines_size k s1 with
      | .error e => .error e
      | .ok (items, s2) => .ok (item :: items, s2)

/-- One batch fill: `lines_size = lines_.size()` is read once (line 177), then the loop
runs `batch_size` times. -/
def InternalThreadEntry {α G : Type} (shuffle : G → List α → List α × G) (shuffleEnabled : Bool)
    (batch_size : Nat) (s : Cursor α G) : Except Failure (List α × Cursor α G) :=
  itemSteps shuffle shuffleEnabled s.lines_.length batch_size s

/-- The first `fills` batch fills in sequence: the records of each fill and the final
state. -/
def prefetchRun {α G : Type} (shuffle : G → List α → List α × G) (shuffleEnabled : Bool)
    (batch_size : Nat) : Nat → Cursor α G → Except Failure (List (List α) × Cursor α G)
  | 0, s => .ok ([], s)
  | fills + 1, s =>
    match InternalThreadEntry shuffle shuffleEnabled batch_size s with
    | .error e => .error e
    | .ok (batch, s1) =>
      match prefetchRun shuffle shuffleEnabled batch_size fills s1 with
      | .error e => .error e
      | .ok (batches, s2) => .ok (batch :: batches, s2)

/-- A generator-free shuffle used to exercise the cursor: rotate the manifest by the
generator's counter, then advance the counter. -/
def rotateShuffle {α : Type} (g : Nat) (l : List α) : List α × Nat := (l.rotate g, g + 1)

/-! ## The manifest loader and the random skip of `DataLayerSetUp` (lines 31-91) -/

/-- The struct `SEGITEMS`: one manifest record. -/
structure SEGITEMS where
  imgfn : List Char
  segfn : List Char
  x1 : Int
  y1 : Int
  x2 : Int
  y2 : Int
  deriving DecidableEq, Repr

/-- The classification `std::isspace` of the "C" locale. -/
def isspace (c : Char) : Bool :=
  c = ' ' || c = '\t' || c = '\n' || c = '\x0b' || c = '\x0c' || c = '\r'

/-- The classification `std::isdigit`. -/
def isdigit (c : Char) : Bool := decide ('0'.toNat ≤ c.toNat) && decide (c.toNat ≤ '9'.toNat)

/-- The loop `while (std::getline(infile, linestr))`: the lines of the file, split at
'\n'. `cur` is the line being read. At the end of the file `getline` succeeds once more
only if it extracted at least one character. -/
def readLinesFrom : List Char → List Char → List (List Char)
  | [], cur => if cur = [] then [] else [cur]
  | c :: cs, cur => if c = '\n' then cur :: readLinesFrom cs [] else readLinesFrom cs (cur ++ [c])

/-- All lines `getline` delivers for a file's content. -/
def readLines (file : List Char) : List (List Char) := readLinesFrom file []

/-- A `std::istringstream`: the unread characters and the stream's `failbit`. -/
structure IStream where
  buf : List Char
  failbit : Bool
  deriving DecidableEq, Repr

/-- The extraction `iss >> str` of a `std::string`; `str` is the variable's content
before. On a failed stream nothing happens; otherwise leading whitespace is skipped and
the characters up to the next whitespace are stored. Reaching the end of the input
while skipping sets `failbit` and leaves the variable alone. -/
def extractString (iss : IStream) (str : List Char) : List Char × IStream :=
  if iss.failbit then (str, iss)
  else
    match iss.buf.dropWhile isspace with
    | [] => (str, { buf := [], failbit := true })
    | c :: cs =>
      ((c :: cs).takeWhile (fun d => !isspace d),
       { buf := (c :: cs).dropWhile (fun d => !isspace d), failbit := false })

/-- The value of a run of decimal digits, most significant first. -/
def digitsValue (ds : List Char) : Nat :=
  ds.foldl (fun acc d => 10 * acc + (d.toNat - '0'.toNat)) 0

/-- The least `int`. -/
def INT_MIN : Int := -2147483648

/-- The greatest `int`. -/
def INT_MAX : Int := 2147483647

/-- The extraction `iss >> v` of an `int`; `v` is the variable's content before. On a
failed stream nothing happens. Otherwise leading whitespace is skipped, an optional sign
and the longest run of digits are read; with no digit the extraction fails and 0 is
stored, a value outside `INT_MIN .. INT_MAX` fails and stores the nearer bound. -/
def extractInt (iss : IStream) (v : Int) : Int × IStream :=
  if iss.failbit then (v, iss)
  else
    match iss.buf.dropWhile isspace with
    | [] => (v, { buf := [], failbit := true })
    | c :: cs =>
      let negative := decide (c = '-')
      let body := if c = '-' ∨ c = '+' then cs else c :: cs
      let digits := body.takeWhile isdigit
      let rest := body.dropWhile isdigit
      if digits = [] then (0, { buf := rest, failbit := true })
      else
        let value : Int := if negative then - (digitsValue digits : Int) else (digitsValue digits : Int)
        if value < INT_MIN then (INT_MIN, { buf := rest, failbit := true })
        else if INT_MAX < value then (INT_MAX, { buf := rest, failbit := true })
        else (value, { buf := rest, failbit := false })

/-- The body of the loop of lines 52-72 for one line: the record that is pushed onto
`lines_`. `uninit` is what the uninitialised locals `x1, y1, x2, y2` happen to hold. No
extraction is checked, so a record is produced whatever the line contains. -/
def parseLine (label_type : LabelType) (uninit : Int) (linestr : List Char) : SEGITEMS :=
  let iss : IStream := { buf := linestr, failbit := false }
  let r0 := extractString iss []
  let r1 := if label_type ≠ LabelType.NONE then extractString r0.2 [] else ([], r0.2)
  let rx1 := extractInt r1.2 uninit
  let ry1 := extractInt rx1.2 uninit
  let rx2 := extractInt ry1.2 uninit
  let ry2 := extractInt rx2.2 uninit
  { imgfn := r0.1, segfn := r1.1, x1 := rx1.1, y1 := ry1.1, x2 := rx2.1, y2 := ry2.1 }

/-- Lines 46-72: the manifest read from the content of the `source` file (empty when
the file cannot be opened). -/
def loadManifest (label_type : LabelType) (uninit : Int) (file : List Char) : List SEGITEMS :=
  (readLines file).map (parseLine label_type uninit)

/-- Lines 83-91: the cursor after the optional random skip. `draw` is the value of
`caffe_rng_rand()`; `none` of the two operands of `%` is changed by a conversion, both
being `unsigned int`. -/
def randSkip (rand_skip draw lines_size : Nat) : Except Failure Nat :=
  if rand_skip ≠ 0 then
    if lines_size > draw % rand_skip then .ok (draw % rand_skip) else .error .fatal
  else .ok 0

/-- The options of `ImageDataParameter` and `TransformationParameter` that lines 31-91
read. -/
structure SetupParam where
  new_height : Int
  new_width : Int
  label_type : LabelType
  has_mean_file : Bool
  shuffle : Bool
  rand_skip : Nat
  deriving DecidableEq, Repr

/-- Lines 31-91 of `DataLayerSetUp`: the two configuration checks, the manifest loop,
the optional shuffle and the optional random skip; the result is the manifest and the
cursor. `file` is the content of the `source` file, `seeded` the generator made from the
seed, `draw` the value `caffe_rng_rand()` returns for the skip. The rest of the function
(reading the first image, shaping the blobs) is not modelled. -/
def DataLayerSetUp {G : Type} (shuffle : G → List SEGITEMS → List SEGITEMS × G)
    (param : SetupParam) (file : List Char) (uninit : Int) (seeded : G) (draw : Nat) :
    Except Failure (Cursor SEGITEMS G) :=
  if param.has_mean_file ≠ false then .error .fatal
  else if ¬ ((param.new_height = 0 ∧ param.new_width = 0) ∨
      (param.new_height > 0 ∧ param.new_width > 0)) then .error .fatal
  else
    let loaded : Cursor SEGITEMS G :=
      { lines_ := loadManifest param.label_type uninit file, lines_id_ := 0, prefetch_rng_ := seeded }
    let s := if param.shuffle then ShuffleImages shuffle loaded else loaded
    match randSkip param.rand_skip draw s.lines_.length with
    | .error e => .error e
    | .ok skip => .ok { s with lines_id_ := skip }

/-- The text `operator<<` writes for an `int`: an optional minus sign and the decimal
digits. -/
def decimal : Int → List Char
  | Int.ofNat n => Nat.toDigits 10 n
  | Int.negSucc n => '-' :: Nat.toDigits 10 (n + 1)

/-! ## Padding and cropping in 32-bit `int` arithmetic (lines 219-249) -/

/-- The value an `int` holds after an operation whose exact result is `z`: `z` itself
when it lies in `INT_MIN .. INT_MAX`, and otherwise `z` reduced modulo 2^32 into that
range, which is what the two's-complement machine code does (the C++ standard leaves
signed overflow undefined). -/
def int32 (z : Int) : Int := (z + 2147483648) % 4294967296 - 2147483648

/-- The value is representable as an `int`. -/
def fitsInt (z : Int) : Prop := INT_MIN ≤ z ∧ z ≤ INT_MAX

instance (z : Int) : Decidable (fitsInt z) := by unfold fitsInt; infer_instance

/-- Lines 224-227 with every operation on `int`: `-x1`, `-y1`, `x2 - cols`, `... + 1`,
`y2 - rows`, `... + 1`. -/
def computePaddingInt32 (cols rows : Nat) (x1 y1 x2 y2 : Int) : Padding :=
  { pad_x1 := max 0 (int32 (-x1))
    pad_y1 := max 0 (int32 (-y1))
    pad_x2 := max 0 (int32 (int32 (x2 - cols) + 1))
    pad_y2 := max 0 (int32 (int32 (y2 - rows) + 1)) }

/-- Lines 228-235 with OpenCV's `int` raster sizes: `cv::copyMakeBorder` creates its
result with `rows + top + bottom` rows and `cols + left + right` columns, both `int`; a
size that does not fit is refused by OpenCV with an exception. -/
def applyPaddingInt32 {α β : Type} (cv_img : Mat α) (cv_seg : Mat β) (zero : α)
    (ignore_label : β) (p : Padding) : Except Failure (Mat α × Mat β) :=
  if p.pad_x1 > 0 ∨ p.pad_x2 > 0 ∨ p.pad_y1 > 0 ∨ p.pad_y2 > 0 then
    if fitsInt (cv_img.cols + p.pad_x1 + p.pad_x2) ∧ fitsInt (cv_img.rows + p.pad_y1 + p.pad_y2) ∧
        fitsInt (cv_seg.cols + p.pad_x1 + p.pad_x2) ∧
        fitsInt (cv_seg.rows + p.pad_y1 + p.pad_y2) then
      .ok (copyMakeBorder cv_img p.pad_y1.toNat p.pad_y2.toNat p.pad_x1.toNat p.pad_x2.toNat zero,
           copyMakeBorder cv_seg p.pad_y1.toNat p.pad_y2.toNat p.pad_x1.toNat p.pad_x2.toNat
             ignore_label)
    else .error .cvException
  else .ok (cv_img, cv_seg)

/-- Lines 219-247 with every operation on `int`: the margins, the padding, the shifts
`x1 + pad_x1`, `x2 + pad_x1`, `y1 + pad_y1`, `y2 + pad_y1`, the four bound checks and the
rectangle `(x1, y1, x2-x1+1, y2-y1+1)`. -/
def padAndShiftInt32 {α β : Type} (cv_img : Mat α) (cv_seg : Mat β) (zero : α) (ignore_label : β)
    (x1 y1 x2 y2 : Int) : Except Failure (Mat α × Mat β × Rect) :=
  let p := computePaddingInt32 cv_img.cols cv_img.rows x1 y1 x2 y2
  match applyPaddingInt32 cv_img cv_seg zero ignore_label p with
  | .error e => .error e
  | .ok padded =>
    let x1 := int32 (x1 + p.pad_x1)
    let x2 := int32 (x2 + p.pad_x1)
    let y1 := int32 (y1 + p.pad_y1)
    let y2 := int32 (y2 + p.pad_y1)
    if boundChecks padded.1.cols padded.1.rows x1 y1 x2 y2 then
      .ok (padded.1, padded.2,
        Rect.mk x1 y1 (int32 (int32 (x2 - x1) + 1)) (int32 (int32 (y2 - y1) + 1)))
    else .error .fatal

/-- Lines 219-249 with every operation on `int`: the image crop and the label crop of one
item, before any resize. -/
def padAndCropInt32 {α β : Type} (cv_img : Mat α) (cv_seg : Mat β) (zero : α) (ignore_label : β)
    (x1 y1 x2 y2 : Int) : Except Failure (Mat α × Mat β) :=
  match padAndShiftInt32 cv_img cv_seg zero ignore_label x1 y1 x2 y2 with
  | .error e => .error e
  | .ok (img, seg, roi) =>
    match img.roi roi with
    | .error e => .error e
    | .ok cv_cropped_img =>
      match seg.roi roi with
      | .error e => .error e
      | .ok cv_cropped_seg => .ok (cv_cropped_img, cv_cropped_seg)

/-- No `int` computed in lines 224-247 overflows: the image size, the window coordinates,
`-x1`, `-y1`, `x2 - cols`, `x2 - cols + 1`, `y2 - rows`, `y2 - rows + 1`, the padded width
and height, the four shifted coordinates and `x2 - x1`, `x2 - x1 + 1`, `y2 - y1`,
`y2 - y1 + 1` all have their exact value in `INT_MIN .. INT_MAX`. -/
def NoOverflow (cols rows : Nat) (x1 y1 x2 y2 : Int) : Prop :=
  fitsInt cols ∧ fitsInt rows ∧ fitsInt x1 ∧ fitsInt y1 ∧ fitsInt x2 ∧ fitsInt y2 ∧
  fitsInt (-x1) ∧ fitsInt (-y1) ∧
  fitsInt (x2 - cols) ∧ fitsInt (x2 - cols + 1) ∧ fitsInt (y2 - rows) ∧ fitsInt (y2 - rows + 1) ∧
  fitsInt (cols + max 0 (-x1) + max 0 (x2 - cols + 1)) ∧
  fitsInt (rows + max 0 (-y1) + max 0 (y2 - rows + 1)) ∧
  fitsInt (x1 + max 0 (-x1)) ∧ fitsInt (x2 + max 0 (-x1)) ∧
  fitsInt (y1 + max 0 (-y1)) ∧ fitsInt (y2 + max 0 (-y1)) ∧
  fitsInt (x2 - x1) ∧ fitsInt (x2 - x1 + 1) ∧ fitsInt (y2 - y1) ∧ fitsInt (y2 - y1 + 1)

instance (cols rows : Nat) (x1 y1 x2 y2 : Int) : Decidable (NoOverflow cols rows x1 y1 x2 y2) := by
  unfold NoOverflow; infer_instance

/-! ## Well-formed manifest text -/

/-- A run of whitespace inside a line: every character is whitespace and none is the
line terminator. -/
def isBlank (ws : List Char) : Prop := ∀ c ∈ ws, isspace c = true ∧ c ≠ '\n'

instance (ws : List Char) : Decidable (isBlank ws) := by
  unfold isBlank; infer_instance

/-- A token: at least one character, none of them whitespace. -/
def isToken (tok : List Char) : Prop := tok ≠ [] ∧ ∀ c ∈ tok, isspace c = false

instance (tok : List Char) : Decidable (isToken tok) := by
  unfold isToken; infer_instance

/-- The text is empty or starts with a whitespace character. -/
def startsBlank (rest : List Char) : Prop := ∀ c, rest.head? = some c → isspace c = true

instance (rest : List Char) : Decidable (startsBlank rest) :=
  match rest with
  | [] => isTrue (fun c h => by simp at h)
  | d :: ds =>
    if hd : isspace d = true then
      isTrue (fun c h => by
        simp only [List.head?_cons, Option.some.injEq] at h
        rw [← h]; exact hd)
    else isFalse (fun h => hd (h d rfl))

/-- The whitespace of one manifest line: `lead` before the first token, `gap1` after the
image path, `gap2` after the second token (used only when the line has one), `gap3`,
`gap4`, `gap5` between the coordinates, `trail` after the last. -/
structure Layout where
  lead : List Char
  gap1 : List Char
  gap2 : List Char
  gap3 : List Char
  gap4 : List Char
  gap5 : List Char
  trail : List Char
  deriving DecidableEq, Repr

/-- The line `<image_path> [<seg_path_or_label>] <x1> <y1> <x2> <y2>` for a record, with
the whitespace of `lay`; the second token is written only when `label_type` is not
NONE. -/
def manifestLine (label_type : LabelType) (item : SEGITEMS) (lay : Layout) : List Char :=
  lay.lead ++ (item.imgfn ++ (lay.gap1 ++
    ((if label_type ≠ LabelType.NONE then item.segfn ++ lay.gap2 else []) ++
      (decimal item.x1 ++ (lay.gap3 ++ (decimal item.y1 ++ (lay.gap4 ++
        (decimal item.x2 ++ (lay.gap5 ++ (decimal item.y2 ++ lay.trail))))))))))

/-- The line is made of whitespace-separated tokens: the paths are tokens (the second
one absent, and empty in the record, when `label_type` is NONE), consecutive tokens are
separated by at least one whitespace character, and the coordinates are `int` values. -/
def WellFormedLine (label_type : LabelType) (item : SEGITEMS) (lay : Layout) : Prop :=
  isToken item.imgfn ∧
  (if label_type ≠ LabelType.NONE then isToken item.segfn ∧ lay.gap2 ≠ [] ∧ isBlank lay.gap2
    else item.segfn = []) ∧
  isBlank lay.lead ∧ (lay.gap1 ≠ [] ∧ isBlank lay.gap1) ∧ (lay.gap3 ≠ [] ∧ isBlank lay.gap3) ∧
  (lay.gap4 ≠ [] ∧ isBlank lay.gap4) ∧ (lay.gap5 ≠ [] ∧ isBlank lay.gap5) ∧ isBlank lay.trail ∧
  (INT_MIN ≤ item.x1 ∧ item.x1 ≤ INT_MAX) ∧ (INT_MIN ≤ item.y1 ∧ item.y1 ≤ INT_MAX) ∧
  (INT_MIN ≤ item.x2 ∧ item.x2 ≤ INT_MAX) ∧ (INT_MIN ≤ item.y2 ∧ item.y2 ≤ INT_MAX)

instance (label_type : LabelType) (item : SEGITEMS) (lay : Layout) :
    Decidable (WellFormedLine label_type item lay) := by
  unfold WellFormedLine; infer_instance

/-- The manifest file with one line per entry, each ended by '\n'; without
`finalNewline` the last line is left unterminated. -/
def manifestFile (label_type : LabelType) (entries : List (SEGITEMS × Layout))
    (finalNewline : Bool) : List Char :=
  if finalNewline then
    (entries.map (fun e => manifestLine label_type e.1 e.2 ++ ['\n'])).flatten
  else ((entries.map (fun e => manifestLine label_type e.1 e.2 ++ ['\n'])).flatten).dropLast

/-- Two sample manifest entries for label mode PIXEL: the first with a tab in one gap, a
negative coordinate and a trailing carriage return, the second indented. -/
def sampleEntries : List (SEGITEMS × Layout) :=
  [(⟨"a.jpg".toList, "m.png".toList, -3, 0, 12, 5⟩,
    ⟨[], [' '], ['\t', ' '], [' '], [' '], [' '], ['\r']⟩),
   (⟨"b.jpg".toList, "7".toList, 10, 20, 2147483647, -2147483648⟩,
    ⟨[' ', ' '], [' '], [' '], [' '], [' '], [' '], []⟩)]

/-! # Lemmas and theorems -/

/-! ### Lemmas on the label loop -/


/-- If every pixel that is not skipped passes the `CHECK_LT`, the loop finishes, a cell
holds 1 when a non-skipped pixel addressed it and keeps its value otherwise. -/
theorem labelLoop_spec (label_dim : Int) (pixels : List Int)
    (hok : ∀ v ∈ pixels, ¬ skipped v → v - 1 < label_dim) (y0 : Buffer) :
    ∃ y, labelLoop label_dim pixels y0 = some y ∧
      ∀ j, y j = if ∃ v ∈ pixels, ¬ skipped v ∧ v - 1 = j then 1 else y0 j := by
  induction pixels generalizing y0 with
  | nil => exact ⟨y0, rfl, fun j => by simp⟩
  | cons p ps ih =>
    have hps : ∀ v ∈ ps, ¬ skipped v → v - 1 < label_dim :=
      fun v hv => hok v (List.mem_cons_of_mem _ hv)
    by_cases hp : skipped p
    · obtain ⟨y, hy, hcell⟩ := ih hps y0
      refine ⟨y, ?_, fun j => ?_⟩
      · have : ¬ (p ≠ 0 ∧ p ≠ 255) := by
          rcases hp with h | h <;> simp [h]
        simp [labelLoop, this, hy]
      · rw [hcell j]
        have : (∃ v ∈ p :: ps, ¬ skipped v ∧ v - 1 = j) ↔ (∃ v ∈ ps, ¬ skipped v ∧ v - 1 = j) := by
          constructor
          · rintro ⟨v, hv, hns, hj⟩
            rcases List.mem_cons.1 hv with rfl | hv
            · exact absurd hp hns
            · exact ⟨v, hv, hns, hj⟩
          · rintro ⟨v, hv, hns, hj⟩
            exact ⟨v, List.mem_cons_of_mem _ hv, hns, hj⟩
        simp only [this]
    · have hlt := hok p (List.mem_cons_self _ _) hp
      have hcond : p ≠ 0 ∧ p ≠ 255 := by
        unfold skipped at hp; push_neg at hp; exact hp
      obtain ⟨y, hy, hcell⟩ := ih hps (y0.write (p - 1) 1)
      refine ⟨y, ?_, fun j => ?_⟩
      · simp [labelLoop, hcond, hlt, hy]
      · rw [hcell j]
        by_cases hj : p - 1 = j
        · have h1 : ∃ v ∈ p :: ps, ¬ skipped v ∧ v - 1 = j := ⟨p, List.mem_cons_self _ _, hp, hj⟩
          rw [if_pos h1]
          split_ifs
          · rfl
          · simp [Buffer.write, hj]
        · have : (∃ v ∈ p :: ps, ¬ skipped v ∧ v - 1 = j) ↔ (∃ v ∈ ps, ¬ skipped v ∧ v - 1 = j) := by
            constructor
            · rintro ⟨v, hv, hns, hvj⟩
              rcases List.mem_cons.1 hv with rfl | hv
              · exact absurd hvj hj
              · exact ⟨v, hv, hns, hvj⟩
            · rintro ⟨v, hv, hns, hvj⟩
              exact ⟨v, List.mem_cons_of_mem _ hv, hns, hvj⟩
          simp only [this]
          split_ifs
          · rfl
          · have : j ≠ p - 1 := fun h => hj h.symm
            simp [Buffer.write, this]

/-- A non-skipped pixel whose index is at or past `label_dim` makes the loop abort. -/
theorem labelLoop_abort (label_dim : Int) (pixels : List Int)
    (hbad : ∃ v ∈ pixels, ¬ skipped v ∧ label_dim ≤ v - 1) (y0 : Buffer) :
    labelLoop label_dim pixels y0 = none := by
  induction pixels generalizing y0 with
  | nil => obtain ⟨v, hv, _⟩ := hbad; simp at hv
  | cons p ps ih =>
    obtain ⟨v, hv, hns, hge⟩ := hbad
    simp only [labelLoop]
    by_cases hcond : p ≠ 0 ∧ p ≠ 255
    · rw [if_pos hcond]
      by_cases hlt : p - 1 < label_dim
      · rw [if_pos hlt]
        rcases List.mem_cons.1 hv with rfl | hv
        · omega
        · exact ih ⟨v, hv, hns, hge⟩ _
      · rw [if_neg hlt]
    · rw [if_neg hcond]
      rcases List.mem_cons.1 hv with rfl | hv
      · exact absurd (by unfold skipped at hns; push_neg at hns; exact hns) hcond
      · exact ih ⟨v, hv, hns, hge⟩ _


/-- A loop that finishes met no pixel that fails the `CHECK_LT`. -/
theorem labelLoop_some (label_dim : Int) (pixels : List Int) (y0 y : Buffer)
    (h : labelLoop label_dim pixels y0 = some y) :
    ∀ v ∈ pixels, ¬ skipped v → v - 1 < label_dim := by
  intro v hv hns
  by_contra hlt
  have := labelLoop_abort label_dim pixels ⟨v, hv, hns, by omega⟩ y0
  rw [this] at h
  exact absurd h (by simp)

theorem labelVector_length (label_dim : Int) (y : Buffer) :
    (labelVector label_dim y).length = label_dim.toNat := by
  simp [labelVector]

theorem labelVector_getElem? (label_dim : Int) (y : Buffer) (j : Nat) (hj : (j : Int) < label_dim) :
    (labelVector label_dim y)[j]? = some (y j) := by
  have : j < label_dim.toNat := by omega
  simp [labelVector, List.getElem?_range this]

/-! ### Properties of label-vector derivation -/

/-- C1. For `label_dim >= 1` and a final label crop whose pixels are 0, 255 or in
`1..label_dim`, label-vector derivation finishes; the vector has `label_dim` entries;
entry `j` is 1 exactly when some pixel has a value `j+1` that is neither 0 nor 255, and
0 otherwise. In particular a crop of 0s and 255s gives the all-zero vector, and a crop
whose only non-ignored value is `k` gives bit `k-1` and no other. -/
theorem label_vector_derivation (label_dim : Int) (crop : List Int) (before : Buffer)
    (hdim : 1 ≤ label_dim)
    (hcrop : ∀ v ∈ crop, v = 0 ∨ v = 255 ∨ (1 ≤ v ∧ v ≤ label_dim)) :
    ∃ y, computeLabel label_dim crop before = some y ∧
      ((labelVector label_dim y).length : Int) = label_dim ∧
      (∀ j : Nat, (j : Int) < label_dim →
        (labelVector label_dim y)[j]? =
          some (if ∃ v ∈ crop, v = (j : Int) + 1 ∧ v ≠ 0 ∧ v ≠ 255 then 1 else 0)) ∧
      ((∀ v ∈ crop, v = 0 ∨ v = 255) → ∀ e ∈ labelVector label_dim y, e = 0) ∧
      (∀ k : Int, k ∈ crop → k ≠ 0 → k ≠ 255 → (∀ v ∈ crop, v = 0 ∨ v = 255 ∨ v = k) →
        ∀ j : Nat, (j : Int) < label_dim →
          (labelVector label_dim y)[j]? = some (if (j : Int) = k - 1 then 1 else 0)) := by
  have hok : ∀ v ∈ crop, ¬ skipped v → v - 1 < label_dim := by
    intro v hv hns
    rcases hcrop v hv with h | h | h
    · exact absurd (Or.inl h) hns
    · exact absurd (Or.inr h) hns
    · omega
  obtain ⟨y, hy, hcell⟩ := labelLoop_spec label_dim crop hok (caffe_set label_dim 0 before)
  have hentry : ∀ j : Nat, (j : Int) < label_dim →
      (labelVector label_dim y)[j]? =
        some (if ∃ v ∈ crop, v = (j : Int) + 1 ∧ v ≠ 0 ∧ v ≠ 255 then 1 else 0) := by
    intro j hj
    rw [labelVector_getElem? label_dim y j hj, hcell]
    have hiff : (∃ v ∈ crop, ¬ skipped v ∧ v - 1 = (j : Int)) ↔
        (∃ v ∈ crop, v = (j : Int) + 1 ∧ v ≠ 0 ∧ v ≠ 255) := by
      constructor
      · rintro ⟨v, hv, hns, hvj⟩
        unfold skipped at hns; push_neg at hns
        exact ⟨v, hv, by omega, hns.1, hns.2⟩
      · rintro ⟨v, hv, hvj, h0, h255⟩
        refine ⟨v, hv, ?_, by omega⟩
        unfold skipped; push_neg; exact ⟨h0, h255⟩
    have hzero : caffe_set label_dim 0 before (j : Int) = 0 := by
      have : 0 ≤ (j : Int) ∧ (j : Int) < label_dim := ⟨by omega, hj⟩
      simp [caffe_set, this]
    by_cases hex : ∃ v ∈ crop, ¬ skipped v ∧ v - 1 = (j : Int)
    · rw [if_pos hex, if_pos (hiff.1 hex)]
    · rw [if_neg hex, if_neg (fun h => hex (hiff.2 h)), hzero]
  refine ⟨y, hy, ?_, hentry, ?_, ?_⟩
  · rw [labelVector_length]; omega
  · intro hall e he
    obtain ⟨j, hj, hje⟩ := List.getElem_of_mem he
    have hjlt : (j : Int) < label_dim := by rw [labelVector_length] at hj; omega
    have h1 := hentry j hjlt
    rw [List.getElem?_eq_getElem hj, hje] at h1
    have hno : ¬ ∃ v ∈ crop, v = (j : Int) + 1 ∧ v ≠ 0 ∧ v ≠ 255 := by
      rintro ⟨v, hv, _, h0, h255⟩
      rcases hall v hv with h | h
      · exact h0 h
      · exact h255 h
    rw [if_neg hno] at h1
    exact Option.some.inj h1
  · intro k hk hk0 hk255 honly j hj
    rw [hentry j hj]
    by_cases hjk : (j : Int) = k - 1
    · have : ∃ v ∈ crop, v = (j : Int) + 1 ∧ v ≠ 0 ∧ v ≠ 255 := ⟨k, hk, by omega, hk0, hk255⟩
      rw [if_pos this, if_pos hjk]
    · have : ¬ ∃ v ∈ crop, v = (j : Int) + 1 ∧ v ≠ 0 ∧ v ≠ 255 := by
        rintro ⟨v, hv, hvj, h0, h255⟩
        rcases honly v hv with h | h | h
        · exact h0 h
        · exact h255 h
        · omega
      rw [if_neg this, if_neg hjk]

/-- Witness of C1: `label_dim = 3` and the crop `0, 2, 255, 2`. -/
theorem label_vector_derivation_witness :
    ((1 : Int) ≤ 3 ∧ ∀ v ∈ [(0 : Int), 2, 255, 2], v = 0 ∨ v = 255 ∨ (1 ≤ v ∧ v ≤ 3)) ∧
    labelOf 3 [0, 2, 255, 2] = some [0, 1, 0] ∧
    ∃ y, computeLabel 3 [0, 2, 255, 2] (fun _ => 7) = some y ∧
      ((labelVector 3 y).length : Int) = 3 ∧
      (∀ j : Nat, (j : Int) < 3 →
        (labelVector 3 y)[j]? =
          some (if ∃ v ∈ [(0 : Int), 2, 255, 2], v = (j : Int) + 1 ∧ v ≠ 0 ∧ v ≠ 255 then 1 else 0)) ∧
      ((∀ v ∈ [(0 : Int), 2, 255, 2], v = 0 ∨ v = 255) → ∀ e ∈ labelVector 3 y, e = 0) ∧
      (∀ k : Int, k ∈ [(0 : Int), 2, 255, 2] → k ≠ 0 → k ≠ 255 →
        (∀ v ∈ [(0 : Int), 2, 255, 2], v = 0 ∨ v = 255 ∨ v = k) →
        ∀ j : Nat, (j : Int) < 3 →
          (labelVector 3 y)[j]? = some (if (j : Int) = k - 1 then 1 else 0)) :=
  ⟨⟨by decide, by decide⟩, by decide,
    label_vector_derivation 3 [0, 2, 255, 2] (fun _ => 7) (by decide) (by decide)⟩

/-- Counterexample to C3 as stated: with `label_dim = 3` the pixel value `-1` is neither
0 nor 255 and its index `-2` is outside `0..2`, yet `CHECK_LT(-2, 3)` passes, the
derivation finishes and the cell at offset `-2`, before the vector, is set to 1. -/
theorem negative_label_not_fatal :
    ((-1 : Int) ≠ 0 ∧ (-1 : Int) ≠ 255 ∧ ¬ (0 ≤ (-1 : Int) - 1 ∧ (-1 : Int) - 1 < 3)) ∧
    (computeLabel 3 [-1] (fun _ => 0)).isSome = true ∧
    (computeLabel 3 [-1] (fun _ => 0)).map (fun y => y (-2)) = some 1 ∧
    labelOf 3 [-1] = some [0, 0, 0] := by
  refine ⟨by decide, by decide, by decide, by decide⟩

/-- C3, amended. For every `label_dim` and every final label crop of non-negative pixel
values (the values an 8-bit label surface holds): if some pixel has a value other than 0
and 255 whose index `v-1` is not in `0..label_dim-1`, the derivation aborts; and a
derivation that finishes has written nowhere outside the `label_dim` cells of the
vector. -/
theorem out_of_range_label_fatal (label_dim : Int) (crop : List Int) (before : Buffer)
    (hnonneg : ∀ v ∈ crop, 0 ≤ v) :
    ((∃ v ∈ crop, v ≠ 0 ∧ v ≠ 255 ∧ ¬ (0 ≤ v - 1 ∧ v - 1 < label_dim)) →
      computeLabel label_dim crop before = none) ∧
    (∀ y, computeLabel label_dim crop before = some y →
      ∀ j : Int, ¬ (0 ≤ j ∧ j < label_dim) → y j = before j) := by
  constructor
  · rintro ⟨v, hv, h0, h255, hidx⟩
    have hv0 := hnonneg v hv
    apply labelLoop_abort
    refine ⟨v, hv, ?_, by omega⟩
    unfold skipped; push_neg; exact ⟨h0, h255⟩
  · intro y hy j hj
    have hok := labelLoop_some label_dim crop _ y hy
    obtain ⟨y', hy', hcell⟩ := labelLoop_spec label_dim crop hok (caffe_set label_dim 0 before)
    have hyy : y = y' := by
      have : some y = some y' := by rw [← hy, ← hy']; rfl
      exact Option.some.inj this
    rw [hyy, hcell j]
    have hno : ¬ ∃ v ∈ crop, ¬ skipped v ∧ v - 1 = j := by
      rintro ⟨v, hv, hns, hvj⟩
      have h1 := hok v hv hns
      have h2 := hnonneg v hv
      have h3 : v ≠ 0 := fun h => hns (Or.inl h)
      omega
    rw [if_neg hno]
    simp [caffe_set, hj]

/-- Witness of the amended C3: `label_dim = 3` and the crop `0, 4`, whose pixel 4 has
index 3. -/
theorem out_of_range_label_fatal_witness :
    (∀ v ∈ [(0 : Int), 4], 0 ≤ v) ∧
    (∃ v ∈ [(0 : Int), 4], v ≠ 0 ∧ v ≠ 255 ∧ ¬ (0 ≤ v - 1 ∧ v - 1 < 3)) ∧
    computeLabel 3 [0, 4] (fun _ => 0) = none :=
  ⟨by decide, by decide,
    (out_of_range_label_fatal 3 [0, 4] (fun _ => 0) (by decide)).1 (by decide)⟩

/-- C9 at a failing input: with `ignore_label = 5` the label surface of label mode NONE
for a 2x2 image is filled with 5; with `label_dim = 10` the derivation sets bit 4, with
`label_dim = 3` it aborts; and the margin padded onto a label surface of 0s for the window
`(-1, 0, 1, 1)` sets bit 4 as well. With `ignore_label = 255` the vector is all zero. -/
theorem ignore_label_not_excluded :
    labelOf 10 (labelSurface LabelType.NONE (Mat.uniform 2 2 (0 : Int)) (Mat.uniform 0 0 (0 : Int))
      0 5).pixels = some [0, 0, 0, 0, 1, 0, 0, 0, 0, 0] ∧
    labelOf 3 (labelSurface LabelType.NONE (Mat.uniform 2 2 (0 : Int)) (Mat.uniform 0 0 (0 : Int))
      0 5).pixels = none ∧
    (padAndCrop (Mat.uniform 2 2 (0 : Int)) (Mat.uniform 2 2 (0 : Int)) 0 5 (-1) 0 1 1).toOption.map
      (fun crop => (crop.2.pixels, labelOf 10 crop.2.pixels)) =
        some ([5, 0, 0, 5, 0, 0], some [0, 0, 0, 0, 1, 0, 0, 0, 0, 0]) ∧
    labelOf 10 (labelSurface LabelType.NONE (Mat.uniform 2 2 (0 : Int)) (Mat.uniform 0 0 (0 : Int))
      0 255).pixels = some [0, 0, 0, 0, 0, 0, 0, 0, 0, 0] := by
  refine ⟨by decide, by decide, by decide, by decide⟩

/-! ### Lemmas on rasters -/

theorem Mat.pixel_isSome {α : Type} (m : Mat α) (hm : m.WellFormed) (r c : Nat)
    (hr : r < m.rows) (hc : c < m.cols) : ∃ v, m.pixel r c = some v := by
  obtain ⟨hlen, hrow⟩ := hm
  have hr' : r < m.data.length := by omega
  have hc' : c < (m.data[r]).length := by
    rw [hrow _ (List.getElem_mem hr')]; exact hc
  exact ⟨(m.data[r])[c], by simp [Mat.pixel, List.getElem?_eq_getElem hr', List.getElem?_eq_getElem hc']⟩

theorem copyMakeBorder_wellFormed {α : Type} (src : Mat α) (hsrc : src.WellFormed)
    (top bottom left right : Nat) (value : α) :
    (copyMakeBorder src top bottom left right value).WellFormed := by
  obtain ⟨hlen, hrow⟩ := hsrc
  constructor
  · simp [copyMakeBorder, hlen]; omega
  · intro row hmem
    simp only [copyMakeBorder, List.mem_append, List.mem_replicate, List.mem_map] at hmem
    rcases hmem with (⟨_, rfl⟩ | ⟨a, ha, rfl⟩) | ⟨_, rfl⟩
    · simp [copyMakeBorder]
    · simp [copyMakeBorder, hrow a ha]; omega
    · simp [copyMakeBorder]

/-- With no margin at all the framed raster is the raster itself. -/
theorem copyMakeBorder_zero {α : Type} (src : Mat α) (value : α) :
    copyMakeBorder src 0 0 0 0 value = src := by
  cases src with
  | mk rows cols data =>
    simp only [copyMakeBorder, List.replicate_zero, List.nil_append, List.append_nil, Nat.zero_add,
      Nat.add_zero]
    congr 1
    exact List.map_id _

/-- The pixels of a framed raster: the source moved by `(top, left)`, `value` around it. -/
theorem copyMakeBorder_pixel {α : Type} (src : Mat α) (hsrc : src.WellFormed)
    (top bottom left right : Nat) (value : α) (i j : Nat)
    (hi : i < top + src.rows + bottom) (hj : j < left + src.cols + right) :
    (copyMakeBorder src top bottom left right value).pixel i j =
      if top ≤ i ∧ i < top + src.rows ∧ left ≤ j ∧ j < left + src.cols then
        src.pixel (i - top) (j - left)
      else some value := by
  obtain ⟨hlen, hrow⟩ := hsrc
  simp only [Mat.pixel, copyMakeBorder]
  by_cases h1 : i < top
  · have hcond : ¬ (top ≤ i ∧ i < top + src.rows ∧ left ≤ j ∧ j < left + src.cols) := by omega
    rw [if_neg hcond, List.append_assoc, List.getElem?_append_left (by simpa using h1)]
    simp [List.getElem?_replicate, h1, hj]
  · by_cases h2 : i < top + src.rows
    · have hlt : i - top < src.data.length := by omega
      rw [List.getElem?_append_left (by simp [hlen]; omega),
        List.getElem?_append_right (by simp; omega)]
      simp only [List.length_replicate, List.getElem?_map, List.getElem?_eq_getElem hlt,
        Option.map_some', Option.some_bind]
      have hrl : (src.data[i - top]).length = src.cols := hrow _ (List.getElem_mem hlt)
      by_cases h3 : j < left
      · have hcond : ¬ (top ≤ i ∧ i < top + src.rows ∧ left ≤ j ∧ j < left + src.cols) := by omega
        rw [if_neg hcond, List.append_assoc, List.getElem?_append_left (by simpa using h3)]
        simp [List.getElem?_replicate, h3]
      · by_cases h4 : j < left + src.cols
        · have hcond : top ≤ i ∧ i < top + src.rows ∧ left ≤ j ∧ j < left + src.cols := by omega
          rw [if_pos hcond, List.getElem?_append_left (by simp [hrl]; omega),
            List.getElem?_append_right (by simp; omega)]
          simp
        · have hcond : ¬ (top ≤ i ∧ i < top + src.rows ∧ left ≤ j ∧ j < left + src.cols) := by
            omega
          rw [if_neg hcond, List.getElem?_append_right (by simp [hrl]; omega)]
          simp only [List.length_append, List.length_replicate, hrl, List.getElem?_replicate]
          rw [if_pos (by omega)]
    · have hcond : ¬ (top ≤ i ∧ i < top + src.rows ∧ left ≤ j ∧ j < left + src.cols) := by omega
      rw [if_neg hcond, List.getElem?_append_right (by simp [hlen]; omega)]
      simp only [List.length_append, List.length_replicate, List.length_map, hlen,
        List.getElem?_replicate]
      rw [if_pos (by omega)]
      simp [List.getElem?_replicate, hj]

/-- A rectangle inside a well-formed raster is cut out without an exception; the result
has the rectangle's size and its pixels are the raster's, moved by `(y, x)`. -/
theorem Mat.roi_spec {α : Type} (m : Mat α) (hm : m.WellFormed) (x y width height : Nat)
    (hx : x + width ≤ m.cols) (hy : y + height ≤ m.rows) :
    ∃ crop, m.roi { x := x, y := y, width := width, height := height } = .ok crop ∧
      crop.WellFormed ∧ crop.rows = height ∧ crop.cols = width ∧
      ∀ r c, r < height → c < width → crop.pixel r c = m.pixel (y + r) (x + c) := by
  obtain ⟨hlen, hrow⟩ := hm
  have hvalid : 0 ≤ (x : Int) ∧ 0 ≤ (width : Int) ∧ (x : Int) + width ≤ m.cols ∧
      0 ≤ (y : Int) ∧ 0 ≤ (height : Int) ∧ (y : Int) + height ≤ m.rows := by
    refine ⟨by omega, by omega, by omega, by omega, by omega, by omega⟩
  refine ⟨_, by simp only [Mat.roi]; rw [if_pos hvalid], ⟨?_, ?_⟩, by simp, by simp, ?_⟩
  · simp [List.length_take, List.length_drop, hlen]; omega
  · intro row hmem
    simp only [Int.toNat_ofNat, List.mem_map] at hmem
    obtain ⟨a, ha, rfl⟩ := hmem
    have : a ∈ m.data := List.mem_of_mem_drop (List.mem_of_mem_take ha)
    simp [List.length_take, List.length_drop, hrow a this]; omega
  · intro r c hr hc
    simp only [Mat.pixel, Int.toNat_ofNat, List.getElem?_map, List.getElem?_take_of_lt hr,
      List.getElem?_drop]
    cases m.data[y + r]? with
    | none => rfl
    | some row => simp [List.getElem?_take_of_lt hc, List.getElem?_drop]

/-- Whether or not the `if` of line 228 is taken, the surfaces that leave it are the
framed ones: with four zero margins the frame is empty. -/
theorem applyPadding_eq {α β : Type} (cv_img : Mat α) (cv_seg : Mat β) (zero : α)
    (ignore_label : β) (p : Padding)
    (hp : 0 ≤ p.pad_x1 ∧ 0 ≤ p.pad_y1 ∧ 0 ≤ p.pad_x2 ∧ 0 ≤ p.pad_y2) :
    applyPadding cv_img cv_seg zero ignore_label p =
      (copyMakeBorder cv_img p.pad_y1.toNat p.pad_y2.toNat p.pad_x1.toNat p.pad_x2.toNat zero,
       copyMakeBorder cv_seg p.pad_y1.toNat p.pad_y2.toNat p.pad_x1.toNat p.pad_x2.toNat
         ignore_label) := by
  unfold applyPadding
  split_ifs with h
  · rfl
  · have h1 : p.pad_x1.toNat = 0 := by omega
    have h2 : p.pad_x2.toNat = 0 := by omega
    have h3 : p.pad_y1.toNat = 0 := by omega
    have h4 : p.pad_y2.toNat = 0 := by omega
    rw [h1, h2, h3, h4, copyMakeBorder_zero, copyMakeBorder_zero]

/-- The crop of one framed surface: its size is that of the window and each pixel is the
source pixel under it, or the fill where the window leaves the source. -/
theorem crop_of_framed {γ : Type} (m : Mat γ) (hm : m.WellFormed) (fill : γ)
    (x1 y1 x2 y2 : Int) (hx : x1 ≤ x2) (hy : y1 ≤ y2) :
    ∃ crop,
      (copyMakeBorder m (max 0 (-y1)).toNat (max 0 (y2 - m.rows + 1)).toNat
          (max 0 (-x1)).toNat (max 0 (x2 - m.cols + 1)).toNat fill).roi
        { x := x1 + max 0 (-x1), y := y1 + max 0 (-y1),
          width := x2 + max 0 (-x1) - (x1 + max 0 (-x1)) + 1,
          height := y2 + max 0 (-y1) - (y1 + max 0 (-y1)) + 1 } = .ok crop ∧
      crop.WellFormed ∧ (crop.cols : Int) = x2 - x1 + 1 ∧ (crop.rows : Int) = y2 - y1 + 1 ∧
      ∀ r c : Nat, r < crop.rows → c < crop.cols →
        ∃ v, crop.pixel r c = some v ∧
          ((0 ≤ y1 + r ∧ y1 + r < m.rows ∧ 0 ≤ x1 + c ∧ x1 + c < m.cols) →
            m.pixelAt (y1 + r) (x1 + c) = some v) ∧
          (¬ (0 ≤ y1 + r ∧ y1 + r < m.rows ∧ 0 ≤ x1 + c ∧ x1 + c < m.cols) → v = fill) := by
  have hrect : Rect.mk (x1 + max 0 (-x1)) (y1 + max 0 (-y1))
        (x2 + max 0 (-x1) - (x1 + max 0 (-x1)) + 1)
        (y2 + max 0 (-y1) - (y1 + max 0 (-y1)) + 1) =
      Rect.mk ((x1 + max 0 (-x1)).toNat : Int) ((y1 + max 0 (-y1)).toNat : Int)
        ((x2 - x1 + 1).toNat : Int) ((y2 - y1 + 1).toNat : Int) := by
    congr 1 <;> omega
  have hframed := copyMakeBorder_wellFormed m hm (max 0 (-y1)).toNat (max 0 (y2 - m.rows + 1)).toNat
    (max 0 (-x1)).toNat (max 0 (x2 - m.cols + 1)).toNat fill
  obtain ⟨crop, hcrop, hwf, hrows, hcols, hpix⟩ :=
    Mat.roi_spec _ hframed (x1 + max 0 (-x1)).toNat (y1 + max 0 (-y1)).toNat
      (x2 - x1 + 1).toNat (y2 - y1 + 1).toNat
      (by simp only [copyMakeBorder]; omega) (by simp only [copyMakeBorder]; omega)
  refine ⟨crop, by rw [hrect]; exact hcrop, hwf, by omega, by omega, ?_⟩
  intro r c hr hc
  rw [hpix r c (by omega) (by omega),
    copyMakeBorder_pixel m hm _ _ _ _ fill _ _ (by omega) (by omega)]
  by_cases hin : 0 ≤ y1 + r ∧ y1 + r < m.rows ∧ 0 ≤ x1 + c ∧ x1 + c < m.cols
  · rw [if_pos (by omega)]
    have hr' : (y1 + max 0 (-y1)).toNat + r - (max 0 (-y1)).toNat = (y1 + r).toNat := by omega
    have hc' : (x1 + max 0 (-x1)).toNat + c - (max 0 (-x1)).toNat = (x1 + c).toNat := by omega
    rw [hr', hc']
    obtain ⟨v, hv⟩ := Mat.pixel_isSome m hm (y1 + r).toNat (x1 + c).toNat (by omega) (by omega)
    refine ⟨v, hv, fun _ => ?_, fun h => absurd hin h⟩
    simp only [Mat.pixelAt]
    rw [if_pos ⟨hin.1, hin.2.2.1⟩, hv]
  · rw [if_neg (by omega)]
    exact ⟨fill, rfl, fun h => absurd h hin, fun _ => rfl⟩

/-- What `padAndShift` returns: the four checks pass on every input. -/
theorem padAndShift_eq {α β : Type} (cv_img : Mat α) (cv_seg : Mat β) (zero : α)
    (ignore_label : β) (x1 y1 x2 y2 : Int) :
    padAndShift cv_img cv_seg zero ignore_label x1 y1 x2 y2 =
      .ok ((applyPadding cv_img cv_seg zero ignore_label
              (computePadding cv_img.cols cv_img.rows x1 y1 x2 y2)).1,
           (applyPadding cv_img cv_seg zero ignore_label
              (computePadding cv_img.cols cv_img.rows x1 y1 x2 y2)).2,
           { x := x1 + max 0 (-x1), y := y1 + max 0 (-y1),
             width := x2 + max 0 (-x1) - (x1 + max 0 (-x1)) + 1,
             height := y2 + max 0 (-y1) - (y1 + max 0 (-y1)) + 1 }) ∧
    ((applyPadding cv_img cv_seg zero ignore_label
        (computePadding cv_img.cols cv_img.rows x1 y1 x2 y2)).1.cols : Int)
      = cv_img.cols + max 0 (-x1) + max 0 (x2 - cv_img.cols + 1) ∧
    ((applyPadding cv_img cv_seg zero ignore_label
        (computePadding cv_img.cols cv_img.rows x1 y1 x2 y2)).1.rows : Int)
      = cv_img.rows + max 0 (-y1) + max 0 (y2 - cv_img.rows + 1) := by
  have hcols : ((applyPadding cv_img cv_seg zero ignore_label
      (computePadding cv_img.cols cv_img.rows x1 y1 x2 y2)).1.cols : Int)
        = cv_img.cols + max 0 (-x1) + max 0 (x2 - cv_img.cols + 1) := by
    unfold applyPadding computePadding
    split_ifs with h
    · simp only [copyMakeBorder]; push_cast; omega
    · simp only at h ⊢; omega
  have hrows : ((applyPadding cv_img cv_seg zero ignore_label
      (computePadding cv_img.cols cv_img.rows x1 y1 x2 y2)).1.rows : Int)
        = cv_img.rows + max 0 (-y1) + max 0 (y2 - cv_img.rows + 1) := by
    unfold applyPadding computePadding
    split_ifs with h
    · simp only [copyMakeBorder]; push_cast; omega
    · simp only at h ⊢; omega
  have hchk : boundChecks
      (applyPadding cv_img cv_seg zero ignore_label
        (computePadding cv_img.cols cv_img.rows x1 y1 x2 y2)).1.cols
      (applyPadding cv_img cv_seg zero ignore_label
        (computePadding cv_img.cols cv_img.rows x1 y1 x2 y2)).1.rows
      (x1 + max 0 (-x1)) (y1 + max 0 (-y1)) (x2 + max 0 (-x1)) (y2 + max 0 (-y1)) = true := by
    simp only [boundChecks, Bool.and_eq_true, decide_eq_true_eq]
    rw [hcols, hrows]
    refine ⟨⟨⟨by omega, by omega⟩, by omega⟩, by omega⟩
  refine ⟨?_, hcols, hrows⟩
  simp only [padAndShift]
  rw [show (computePadding cv_img.cols cv_img.rows x1 y1 x2 y2).pad_x1 = max 0 (-x1) from rfl,
    show (computePadding cv_img.cols cv_img.rows x1 y1 x2 y2).pad_y1 = max 0 (-y1) from rfl,
    if_pos hchk]

/-- Pad-then-crop in exact integer arithmetic: for a well-formed image and a label
surface of the same size, and a window with `x1 <= x2` and `y1 <= y2`, `padAndCrop`
succeeds; both crops are `x2-x1+1` wide and `y2-y1+1` high; the pixel at row `r`, column
`c` of each crop is the source pixel at `(y1+r, x1+c)` when that position is inside the
source and the fill otherwise; for a window inside the image the crops are the direct
sub-rectangles. -/
theorem padAndCrop_exact {α β : Type} (cv_img : Mat α) (cv_seg : Mat β) (zero : α)
    (ignore_label : β) (x1 y1 x2 y2 : Int)
    (himg : cv_img.WellFormed) (hseg : cv_seg.WellFormed)
    (hsize : cv_seg.rows = cv_img.rows ∧ cv_seg.cols = cv_img.cols)
    (hx : x1 ≤ x2) (hy : y1 ≤ y2) :
    ∃ img seg, padAndCrop cv_img cv_seg zero ignore_label x1 y1 x2 y2 = .ok (img, seg) ∧
      img.WellFormed ∧ seg.WellFormed ∧
      (img.cols : Int) = x2 - x1 + 1 ∧ (img.rows : Int) = y2 - y1 + 1 ∧
      (seg.cols : Int) = x2 - x1 + 1 ∧ (seg.rows : Int) = y2 - y1 + 1 ∧
      (∀ r c : Nat, (r : Int) < y2 - y1 + 1 → (c : Int) < x2 - x1 + 1 →
        ∃ v l, img.pixel r c = some v ∧ seg.pixel r c = some l ∧
          ((0 ≤ y1 + r ∧ y1 + r < cv_img.rows ∧ 0 ≤ x1 + c ∧ x1 + c < cv_img.cols) →
            cv_img.pixelAt (y1 + r) (x1 + c) = some v ∧
            cv_seg.pixelAt (y1 + r) (x1 + c) = some l) ∧
          (¬ (0 ≤ y1 + r ∧ y1 + r < cv_img.rows ∧ 0 ≤ x1 + c ∧ x1 + c < cv_img.cols) →
            v = zero ∧ l = ignore_label)) ∧
      ((0 ≤ x1 ∧ 0 ≤ y1 ∧ x2 < cv_img.cols ∧ y2 < cv_img.rows) →
        cv_img.roi { x := x1, y := y1, width := x2 - x1 + 1, height := y2 - y1 + 1 } = .ok img ∧
        cv_seg.roi { x := x1, y := y1, width := x2 - x1 + 1, height := y2 - y1 + 1 } = .ok seg) := by
  obtain ⟨hshift, -, -⟩ := padAndShift_eq cv_img cv_seg zero ignore_label x1 y1 x2 y2
  have hpad := applyPadding_eq cv_img cv_seg zero ignore_label
    (computePadding cv_img.cols cv_img.rows x1 y1 x2 y2)
    (by simp only [computePadding]; omega)
  simp only [computePadding] at hpad
  obtain ⟨img, himgc, himgwf, himgcols, himgrows, himgpix⟩ :=
    crop_of_framed cv_img himg zero x1 y1 x2 y2 hx hy
  obtain ⟨seg, hsegc, hsegwf, hsegcols, hsegrows, hsegpix⟩ :=
    crop_of_framed cv_seg hseg ignore_label x1 y1 x2 y2 hx hy
  rw [hsize.1, hsize.2] at hsegc hsegpix
  have hrun : padAndCrop cv_img cv_seg zero ignore_label x1 y1 x2 y2 = .ok (img, seg) := by
    simp only [padAndCrop, hshift, computePadding, hpad, himgc, hsegc]
  refine ⟨img, seg, hrun, himgwf, hsegwf, himgcols, himgrows, hsegcols, hsegrows, ?_, ?_⟩
  · intro r c hr hc
    obtain ⟨v, hv, hvin, hvout⟩ := himgpix r c (by omega) (by omega)
    obtain ⟨l, hl, hlin, hlout⟩ := hsegpix r c (by omega) (by omega)
    exact ⟨v, l, hv, hl, fun h => ⟨hvin h, hlin h⟩, fun h => ⟨hvout h, hlout h⟩⟩
  · rintro ⟨h1, h2, h3, h4⟩
    have e1 : max 0 (-x1) = 0 := by omega
    have e2 : max 0 (-y1) = 0 := by omega
    have e3 : max 0 (x2 - (cv_img.cols : Int) + 1) = 0 := by omega
    have e4 : max 0 (y2 - (cv_img.rows : Int) + 1) = 0 := by omega
    rw [e1, e2, e3, e4] at himgc hsegc
    simp only [Int.toNat_zero, copyMakeBorder_zero, add_zero] at himgc hsegc
    exact ⟨himgc, hsegc⟩

theorem int32_of_fitsInt (z : Int) (h : fitsInt z) : int32 z = z := by
  unfold fitsInt INT_MIN INT_MAX at h
  unfold int32
  omega

/-- As long as no `int` overflows, the 32-bit computation is the exact one. -/
theorem padAndCropInt32_eq {α β : Type} (cv_img : Mat α) (cv_seg : Mat β) (zero : α)
    (ignore_label : β) (x1 y1 x2 y2 : Int)
    (hsize : cv_seg.rows = cv_img.rows ∧ cv_seg.cols = cv_img.cols)
    (hno : NoOverflow cv_img.cols cv_img.rows x1 y1 x2 y2) :
    padAndCropInt32 cv_img cv_seg zero ignore_label x1 y1 x2 y2 =
      padAndCrop cv_img cv_seg zero ignore_label x1 y1 x2 y2 := by
  obtain ⟨-, -, -, -, -, -, hnx1, hny1, hxc, hxc1, hyr, hyr1, hpc, hpr, hsx1, hsx2, hsy1, hsy2,
    hw, hw1, hh, hh1⟩ := hno
  have hpad : computePaddingInt32 cv_img.cols cv_img.rows x1 y1 x2 y2 =
      computePadding cv_img.cols cv_img.rows x1 y1 x2 y2 := by
    simp only [computePaddingInt32, computePadding, int32_of_fitsInt _ hnx1,
      int32_of_fitsInt _ hny1, int32_of_fitsInt _ hxc, int32_of_fitsInt _ hxc1,
      int32_of_fitsInt _ hyr, int32_of_fitsInt _ hyr1]
  have happly : applyPaddingInt32 cv_img cv_seg zero ignore_label
      (computePadding cv_img.cols cv_img.rows x1 y1 x2 y2) =
      .ok (applyPadding cv_img cv_seg zero ignore_label
        (computePadding cv_img.cols cv_img.rows x1 y1 x2 y2)) := by
    unfold applyPaddingInt32 applyPadding
    split_ifs with h1 h2
    · rfl
    · exact absurd (by
        simp only [computePadding, hsize.1, hsize.2]
        exact ⟨hpc, hpr, hpc, hpr⟩) h2
    · rfl
  have hwidth : fitsInt (x2 + max 0 (-x1) - (x1 + max 0 (-x1))) := by
    have : x2 + max 0 (-x1) - (x1 + max 0 (-x1)) = x2 - x1 := by omega
    rw [this]; exact hw
  have hheight : fitsInt (y2 + max 0 (-y1) - (y1 + max 0 (-y1))) := by
    have : y2 + max 0 (-y1) - (y1 + max 0 (-y1)) = y2 - y1 := by omega
    rw [this]; exact hh
  have hwidth1 : fitsInt (x2 + max 0 (-x1) - (x1 + max 0 (-x1)) + 1) := by
    have : x2 + max 0 (-x1) - (x1 + max 0 (-x1)) + 1 = x2 - x1 + 1 := by omega
    rw [this]; exact hw1
  have hheight1 : fitsInt (y2 + max 0 (-y1) - (y1 + max 0 (-y1)) + 1) := by
    have : y2 + max 0 (-y1) - (y1 + max 0 (-y1)) + 1 = y2 - y1 + 1 := by omega
    rw [this]; exact hh1
  have hshift : padAndShiftInt32 cv_img cv_seg zero ignore_label x1 y1 x2 y2 =
      padAndShift cv_img cv_seg zero ignore_label x1 y1 x2 y2 := by
    simp only [padAndShiftInt32, padAndShift, hpad, happly]
    simp only [computePadding, int32_of_fitsInt _ hsx1, int32_of_fitsInt _ hsx2,
      int32_of_fitsInt _ hsy1, int32_of_fitsInt _ hsy2, int32_of_fitsInt _ hwidth,
      int32_of_fitsInt _ hheight, int32_of_fitsInt _ hwidth1, int32_of_fitsInt _ hheight1]
  simp only [padAndCropInt32, padAndCrop, hshift]

/-! ### Properties of pad-then-crop -/

/-- Counterexample to C2 as stated: a 1x1 image with its label surface and the window
`(INT_MIN, 0, INT_MIN + 1, 0)`, which has `x1 <= x2` and `y1 <= y2`. In `int` arithmetic
`-x1` is `INT_MIN` again, so `pad_x1 = 0`, the shifted `x1` stays negative and
`CHECK_GT(x1, -1)` aborts: no crop of width 2 is produced. -/
theorem pad_then_crop_overflow :
    ((Mat.uniform 1 1 (7 : Nat)).WellFormed ∧ (Mat.uniform 1 1 (9 : Nat)).WellFormed ∧
      INT_MIN ≤ INT_MIN + 1 ∧ (0 : Int) ≤ 0) ∧
    (computePaddingInt32 1 1 INT_MIN 0 (INT_MIN + 1) 0).pad_x1 = 0 ∧
    padAndCropInt32 (Mat.uniform 1 1 (7 : Nat)) (Mat.uniform 1 1 (9 : Nat)) 0 255
      INT_MIN 0 (INT_MIN + 1) 0 = .error .fatal := by
  refine ⟨by decide, by decide, by decide⟩

/-- C2, amended. For a well-formed image (of any size, so also of width and height at
least 1) and a label surface of the same size, and a window with `x1 <= x2` and
`y1 <= y2` (coordinates may be negative or exceed the image) for which no `int` computed
in lines 224-247 overflows, pad-then-crop succeeds; both crops are `x2-x1+1` wide and
`y2-y1+1` high; the pixel at row `r`, column `c` of each crop is the source pixel at
`(y1+r, x1+c)` when that position is inside the source and the fill otherwise (`zero` for
the image, `ignore_label` for the label surface). For a window inside the image the crops
are the direct sub-rectangles. -/
theorem pad_then_crop {α β : Type} (cv_img : Mat α) (cv_seg : Mat β) (zero : α)
    (ignore_label : β) (x1 y1 x2 y2 : Int)
    (himg : cv_img.WellFormed) (hseg : cv_seg.WellFormed)
    (hsize : cv_seg.rows = cv_img.rows ∧ cv_seg.cols = cv_img.cols)
    (hx : x1 ≤ x2) (hy : y1 ≤ y2)
    (hno : NoOverflow cv_img.cols cv_img.rows x1 y1 x2 y2) :
    ∃ img seg, padAndCropInt32 cv_img cv_seg zero ignore_label x1 y1 x2 y2 = .ok (img, seg) ∧
      img.WellFormed ∧ seg.WellFormed ∧
      (img.cols : Int) = x2 - x1 + 1 ∧ (img.rows : Int) = y2 - y1 + 1 ∧
      (seg.cols : Int) = x2 - x1 + 1 ∧ (seg.rows : Int) = y2 - y1 + 1 ∧
      (∀ r c : Nat, (r : Int) < y2 - y1 + 1 → (c : Int) < x2 - x1 + 1 →
        ∃ v l, img.pixel r c = some v ∧ seg.pixel r c = some l ∧
          ((0 ≤ y1 + r ∧ y1 + r < cv_img.rows ∧ 0 ≤ x1 + c ∧ x1 + c < cv_img.cols) →
            cv_img.pixelAt (y1 + r) (x1 + c) = some v ∧
            cv_seg.pixelAt (y1 + r) (x1 + c) = some l) ∧
          (¬ (0 ≤ y1 + r ∧ y1 + r < cv_img.rows ∧ 0 ≤ x1 + c ∧ x1 + c < cv_img.cols) →
            v = zero ∧ l = ignore_label)) ∧
      ((0 ≤ x1 ∧ 0 ≤ y1 ∧ x2 < cv_img.cols ∧ y2 < cv_img.rows) →
        cv_img.roi { x := x1, y := y1, width := x2 - x1 + 1, height := y2 - y1 + 1 } = .ok img ∧
        cv_seg.roi { x := x1, y := y1, width := x2 - x1 + 1, height := y2 - y1 + 1 } = .ok seg) := by
  rw [padAndCropInt32_eq cv_img cv_seg zero ignore_label x1 y1 x2 y2 hsize hno]
  exact padAndCrop_exact cv_img cv_seg zero ignore_label x1 y1 x2 y2 himg hseg hsize hx hy

/-- Witness of C2: a 2x3 image, a label surface of 9s, and the window `(-1, 1, 3, 2)`,
which leaves the image by one pixel on the left, on the right and at the bottom. -/
theorem pad_then_crop_witness :
    ((⟨2, 3, [[1, 2, 3], [4, 5, 6]]⟩ : Mat Nat).WellFormed ∧
      (Mat.uniform 2 3 (9 : Nat)).WellFormed ∧
      ((Mat.uniform 2 3 (9 : Nat)).rows = (⟨2, 3, [[1, 2, 3], [4, 5, 6]]⟩ : Mat Nat).rows ∧
        (Mat.uniform 2 3 (9 : Nat)).cols = (⟨2, 3, [[1, 2, 3], [4, 5, 6]]⟩ : Mat Nat).cols) ∧
      (-1 : Int) ≤ 3 ∧ (1 : Int) ≤ 2 ∧ NoOverflow 3 2 (-1) 1 3 2) ∧
    padAndCropInt32 (⟨2, 3, [[1, 2, 3], [4, 5, 6]]⟩ : Mat Nat) (Mat.uniform 2 3 (9 : Nat)) 0 255
        (-1) 1 3 2 =
      .ok (⟨2, 5, [[0, 4, 5, 6, 0], [0, 0, 0, 0, 0]]⟩,
           ⟨2, 5, [[255, 9, 9, 9, 255], [255, 255, 255, 255, 255]]⟩) ∧
    ∃ img seg, padAndCropInt32 (⟨2, 3, [[1, 2, 3], [4, 5, 6]]⟩ : Mat Nat)
        (Mat.uniform 2 3 (9 : Nat)) 0 255 (-1) 1 3 2 = .ok (img, seg) ∧
      (img.cols : Int) = 3 - (-1) + 1 ∧ (img.rows : Int) = 2 - 1 + 1 := by
  obtain ⟨img, seg, hrun, -, -, hc, hr, -⟩ :=
    pad_then_crop (⟨2, 3, [[1, 2, 3], [4, 5, 6]]⟩ : Mat Nat) (Mat.uniform 2 3 (9 : Nat)) 0 255
      (-1) 1 3 2 (by decide) (by decide) ⟨rfl, rfl⟩ (by decide) (by decide) (by decide)
  exact ⟨⟨by decide, by decide, ⟨rfl, rfl⟩, by decide, by decide, by decide⟩, by decide,
    img, seg, hrun, hc, hr⟩

/-! ### Properties of the bound checks and the random skip -/

/-- C10. For every image (any width and height, zero included) and every integer window,
with the margins of lines 224-227 the shifted window has `x1 >= 0`, `y1 >= 0`,
`x2 < w + pad_left + pad_right` and `y2 < h + pad_top + pad_bottom`; the padded image has
that width and height, so none of the four checks of lines 241-244 fires. -/
theorem post_padding_bounds {α β : Type} (cv_img : Mat α) (cv_seg : Mat β) (zero : α)
    (ignore_label : β) (x1 y1 x2 y2 : Int) :
    (computePadding cv_img.cols cv_img.rows x1 y1 x2 y2).pad_x1 = max 0 (-x1) ∧
    (computePadding cv_img.cols cv_img.rows x1 y1 x2 y2).pad_y1 = max 0 (-y1) ∧
    (computePadding cv_img.cols cv_img.rows x1 y1 x2 y2).pad_x2 = max 0 (x2 - cv_img.cols + 1) ∧
    (computePadding cv_img.cols cv_img.rows x1 y1 x2 y2).pad_y2 = max 0 (y2 - cv_img.rows + 1) ∧
    0 ≤ x1 + max 0 (-x1) ∧ 0 ≤ y1 + max 0 (-y1) ∧
    x2 + max 0 (-x1) < cv_img.cols + max 0 (-x1) + max 0 (x2 - cv_img.cols + 1) ∧
    y2 + max 0 (-y1) < cv_img.rows + max 0 (-y1) + max 0 (y2 - cv_img.rows + 1) ∧
    ∃ img seg roi, padAndShift cv_img cv_seg zero ignore_label x1 y1 x2 y2 = .ok (img, seg, roi) ∧
      (img.cols : Int) = cv_img.cols + max 0 (-x1) + max 0 (x2 - cv_img.cols + 1) ∧
      (img.rows : Int) = cv_img.rows + max 0 (-y1) + max 0 (y2 - cv_img.rows + 1) ∧
      roi.x = x1 + max 0 (-x1) ∧ roi.y = y1 + max 0 (-y1) := by
  refine ⟨rfl, rfl, rfl, rfl, by omega, by omega, by omega, by omega, ?_⟩
  obtain ⟨hrun, hcols, hrows⟩ := padAndShift_eq cv_img cv_seg zero ignore_label x1 y1 x2 y2
  exact ⟨_, _, _, hrun, hcols, hrows, rfl, rfl⟩

/-- C8. With `rand_skip = m > 0`, a draw `r` and a manifest of `n` records the skip is
`r mod m`, which is below `m`; the setup aborts exactly when `n <= r mod m`, and otherwise
the cursor is `r mod m`, a valid index. With `rand_skip = 0` the cursor is 0. The last
part states the same of `DataLayerSetUp` as a whole, for a configuration that passes the
two configuration checks and does not shuffle. -/
theorem rand_skip_cursor (m r n : Nat) (hm : 0 < m) :
    r % m < m ∧
    (randSkip m r n = .error .fatal ↔ n ≤ r % m) ∧
    (¬ n ≤ r % m → randSkip m r n = .ok (r % m) ∧ r % m < n) ∧
    randSkip 0 r n = .ok 0 ∧
    (∀ (G : Type) (shuffle : G → List SEGITEMS → List SEGITEMS × G) (param : SetupParam)
        (file : List Char) (uninit : Int) (seeded : G),
      param.has_mean_file = false →
      ((param.new_height = 0 ∧ param.new_width = 0) ∨
        (param.new_height > 0 ∧ param.new_width > 0)) →
      param.shuffle = false → param.rand_skip = m →
      (loadManifest param.label_type uninit file).length = n →
      DataLayerSetUp shuffle param file uninit seeded r =
        if n ≤ r % m then .error .fatal
        else .ok ⟨loadManifest param.label_type uninit file, r % m, seeded⟩) := by
  have hm0 : m ≠ 0 := by omega
  refine ⟨Nat.mod_lt _ hm, ?_, ?_, by simp [randSkip], ?_⟩
  · by_cases h : n > r % m
    · simp [randSkip, hm0, h]
    · simp [randSkip, hm0, h]; omega
  · intro h
    have h' : n > r % m := by omega
    exact ⟨by simp [randSkip, hm0, h'], h'⟩
  · intro G shuffle param file uninit seeded hmean hsize hshuffle hskip hn
    have h1 : ¬ (param.has_mean_file ≠ false) := not_not.2 hmean
    have h2 : ¬ (param.shuffle = true) := by rw [hshuffle]; decide
    have h3 : param.rand_skip ≠ 0 := by rw [hskip]; exact hm0
    simp only [DataLayerSetUp]
    rw [if_neg h1, if_neg (not_not.2 hsize), if_neg h2]
    simp only [randSkip, hn]
    rw [if_pos h3, hskip]
    by_cases h : n > r % m
    · rw [if_pos h, if_neg (by omega)]
    · rw [if_neg h, if_pos (by omega)]

/-- Witness of C8: `rand_skip = 4`, draw 10, a manifest of 3 records (skip 2). -/
theorem rand_skip_cursor_witness :
    0 < 4 ∧ 10 % 4 < 4 ∧
    (randSkip 4 10 3 = .error .fatal ↔ 3 ≤ 10 % 4) ∧
    (¬ 3 ≤ 10 % 4 → randSkip 4 10 3 = .ok (10 % 4) ∧ 10 % 4 < 3) ∧
    randSkip 0 10 3 = .ok 0 :=
  ⟨by decide, (rand_skip_cursor 4 10 3 (by decide)).1, (rand_skip_cursor 4 10 3 (by decide)).2.1,
    (rand_skip_cursor 4 10 3 (by decide)).2.2.1, (rand_skip_cursor 4 10 3 (by decide)).2.2.2.1⟩

/-! ### Lemmas on the manifest cursor -/

/-- A run of `a + b` iterations is a run of `a` followed by a run of `b`. -/
theorem itemSteps_add {α G : Type} (shuffle : G → List α → List α × G) (en : Bool) (n a b : Nat)
    (s : Cursor α G) :
    itemSteps shuffle en n (a + b) s =
      match itemSteps shuffle en n a s with
      | .error e => .error e
      | .ok (r1, s1) =>
        match itemSteps shuffle en n b s1 with
        | .error e => .error e
        | .ok (r2, s2) => .ok (r1 ++ r2, s2) := by
  induction a generalizing s with
  | zero =>
    simp only [Nat.zero_add, itemSteps]
    cases itemSteps shuffle en n b s with
    | error e => rfl
    | ok v => rfl
  | succ a ih =>
    rw [Nat.succ_add]
    simp only [itemSteps]
    cases itemStep shuffle en n s with
    | error e => rfl
    | ok v =>
      obtain ⟨item, s1⟩ := v
      simp only [ih s1]
      cases itemSteps shuffle en n a s1 with
      | error e => rfl
      | ok w =>
        obtain ⟨r1, s2⟩ := w
        simp only
        cases itemSteps shuffle en n b s2 with
        | error e => rfl
        | ok u => rfl

/-- One iteration at a valid cursor: the record under the cursor is used and the cursor
advances, wrapping (and reshuffling when configured) after the last record. -/
theorem itemStep_eq {α G : Type} (shuffle : G → List α → List α × G) (en : Bool) (n : Nat)
    (s : Cursor α G) (hlen : s.lines_.length = n) (hid : s.lines_id_ < n) :
    ∃ item, s.lines_[s.lines_id_]? = some item ∧
      itemStep shuffle en n s =
        .ok (item,
          if s.lines_id_ + 1 < n then { s with lines_id_ := s.lines_id_ + 1 }
          else if en then ShuffleImages shuffle { s with lines_id_ := 0 }
          else { s with lines_id_ := 0 }) := by
  have hlt : s.lines_id_ < s.lines_.length := by omega
  refine ⟨s.lines_[s.lines_id_], List.getElem?_eq_getElem hlt, ?_⟩
  simp only [itemStep, List.getElem?_eq_getElem hlt]
  rw [if_pos hid]
  by_cases h : s.lines_id_ + 1 < n
  · rw [if_neg (by omega), if_pos h]
  · rw [if_pos (by omega), if_neg h]
    cases en <;> simp

/-- From cursor `i`, the `n - i` iterations up to the wrap use the records `i .. n-1` in
order and leave the cursor at 0, the manifest reshuffled when configured. -/
theorem itemSteps_pass {α G : Type} (shuffle : G → List α → List α × G) (en : Bool) (n k : Nat)
    (s : Cursor α G) (hlen : s.lines_.length = n) (hk : 0 < k) (hpos : s.lines_id_ + k = n) :
    itemSteps shuffle en n k s =
      .ok (s.lines_.drop s.lines_id_,
        if en then ShuffleImages shuffle { s with lines_id_ := 0 }
        else { s with lines_id_ := 0 }) := by
  induction k generalizing s with
  | zero => omega
  | succ k ih =>
    obtain ⟨item, hitem, hstep⟩ := itemStep_eq shuffle en n s hlen (by omega)
    have hlt : s.lines_id_ < s.lines_.length := by omega
    have hdrop : s.lines_.drop s.lines_id_ = item :: s.lines_.drop (s.lines_id_ + 1) := by
      rw [List.drop_eq_getElem_cons hlt]
      rw [List.getElem?_eq_getElem hlt] at hitem
      rw [Option.some.inj hitem]
    simp only [itemSteps, hstep]
    by_cases hlast : s.lines_id_ + 1 < n
    · rw [if_pos hlast]
      have := ih { s with lines_id_ := s.lines_id_ + 1 } hlen (by omega) (by simp only; omega)
      simp only at this
      rw [this, hdrop]
    · rw [if_neg hlast]
      have hk0 : k = 0 := by omega
      subst hk0
      have hnil : s.lines_.drop (s.lines_id_ + 1) = [] := List.drop_of_length_le (by omega)
      simp only [itemSteps]
      rw [hdrop, hnil]

/-- After any number of whole passes from cursor 0 the run has not failed, the cursor is
0 again and the manifest is a permutation of the one it started with. -/
theorem itemSteps_passes {α G : Type} (shuffle : G → List α → List α × G)
    (hperm : ∀ g l, ((shuffle g l).1).Perm l) (en : Bool) (n : Nat) (hn : 0 < n) (p : Nat)
    (s : Cursor α G) (hlen : s.lines_.length = n) (hid : s.lines_id_ = 0) :
    ∃ before s1, itemSteps shuffle en n (p * n) s = .ok (before, s1) ∧
      s1.lines_id_ = 0 ∧ s1.lines_.Perm s.lines_ := by
  induction p with
  | zero => exact ⟨[], s, by simp [itemSteps], hid, List.Perm.refl _⟩
  | succ p ih =>
    obtain ⟨before, s1, hrun, hid1, hperm1⟩ := ih
    have hlen1 : s1.lines_.length = n := by rw [hperm1.length_eq, hlen]
    have hpass := itemSteps_pass shuffle en n n s1 hlen1 hn (by omega)
    refine ⟨before ++ s1.lines_.drop s1.lines_id_,
      if en then ShuffleImages shuffle { s1 with lines_id_ := 0 } else { s1 with lines_id_ := 0 },
      ?_, ?_, ?_⟩
    · rw [Nat.succ_mul, itemSteps_add, hrun]
      simp only [hpass]
    · cases en <;> simp [ShuffleImages]
    · cases en
      · simpa using hperm1
      · simp only [ShuffleImages, if_true]
        exact (hperm _ _).trans hperm1

/-- Without shuffle, `k` iterations from a valid cursor `i` use the records at
`(i + t) mod n` for `t = 0 .. k-1` and only move the cursor. -/
theorem itemSteps_noShuffle {α G : Type} (shuffle : G → List α → List α × G) (n k : Nat)
    (s : Cursor α G) (hlen : s.lines_.length = n) (hid : s.lines_id_ < n) :
    ∃ reads, itemSteps shuffle false n k s =
        .ok (reads, { s with lines_id_ := (s.lines_id_ + k) % n }) ∧
      reads.length = k ∧
      ∀ t, t < k → reads[t]? = s.lines_[(s.lines_id_ + t) % n]? := by
  induction k generalizing s with
  | zero =>
    refine ⟨[], ?_, rfl, fun t ht => by omega⟩
    simp only [itemSteps, Nat.add_zero, Nat.mod_eq_of_lt hid]
  | succ k ih =>
    obtain ⟨item, hitem, hstep⟩ := itemStep_eq shuffle false n s hlen hid
    have hnext : (if s.lines_id_ + 1 < n then ({ s with lines_id_ := s.lines_id_ + 1 } : Cursor α G)
        else if false = true then ShuffleImages shuffle { s with lines_id_ := 0 }
        else { s with lines_id_ := 0 }) = { s with lines_id_ := (s.lines_id_ + 1) % n } := by
      by_cases h : s.lines_id_ + 1 < n
      · rw [if_pos h, Nat.mod_eq_of_lt h]
      · have : s.lines_id_ + 1 = n := by omega
        rw [if_neg h, this, Nat.mod_self]
        simp
    rw [hnext] at hstep
    obtain ⟨reads, hrun, hrl, hreads⟩ :=
      ih { s with lines_id_ := (s.lines_id_ + 1) % n } hlen (Nat.mod_lt _ (by omega))
    simp only at hrun hreads
    refine ⟨item :: reads, ?_, by simp [hrl], ?_⟩
    · simp only [itemSteps, hstep, hrun]
      have : ((s.lines_id_ + 1) % n + k) % n = (s.lines_id_ + (k + 1)) % n := by
        rw [Nat.add_mod, Nat.mod_mod, ← Nat.add_mod]; congr 1; omega
      rw [this]
    · intro t ht
      cases t with
      | zero => simp [Nat.mod_eq_of_lt hid, hitem]
      | succ t =>
        rw [List.getElem?_cons_succ, hreads t (by omega)]
        have : ((s.lines_id_ + 1) % n + t) % n = (s.lines_id_ + (t + 1)) % n := by
          rw [Nat.add_mod, Nat.mod_mod, ← Nat.add_mod]; congr 1; omega
        rw [this]

/-- Without shuffle, `fills` batch fills from a valid cursor `i`: item `j` of fill `b` is
the record at `(i + b * batch_size + j) mod n`, and only the cursor moves. -/
theorem prefetchRun_noShuffle {α G : Type} (shuffle : G → List α → List α × G)
    (batch_size fills : Nat) (s : Cursor α G) (hid : s.lines_id_ < s.lines_.length) :
    ∃ batches, prefetchRun shuffle false batch_size fills s =
        .ok (batches, { s with lines_id_ := (s.lines_id_ + fills * batch_size) % s.lines_.length }) ∧
      batches.length = fills ∧
      ∀ b, b < fills → ∃ batch, batches[b]? = some batch ∧ batch.length = batch_size ∧
        ∀ j, j < batch_size →
          batch[j]? = s.lines_[(s.lines_id_ + b * batch_size + j) % s.lines_.length]? := by
  induction fills generalizing s with
  | zero =>
    refine ⟨[], ?_, rfl, fun b hb => by omega⟩
    simp only [prefetchRun, Nat.zero_mul, Nat.add_zero, Nat.mod_eq_of_lt hid]
  | succ fills ih =>
    obtain ⟨batch, hfill, hbl, hbatch⟩ :=
      itemSteps_noShuffle shuffle s.lines_.length batch_size s rfl hid
    obtain ⟨batches, hrun, hlen, hrest⟩ :=
      ih { s with lines_id_ := (s.lines_id_ + batch_size) % s.lines_.length }
        (Nat.mod_lt _ (by omega))
    simp only at hrun hrest
    refine ⟨batch :: batches, ?_, by simp [hlen], ?_⟩
    · simp only [prefetchRun, InternalThreadEntry, hfill, hrun]
      have : ((s.lines_id_ + batch_size) % s.lines_.length + fills * batch_size) % s.lines_.length
          = (s.lines_id_ + (fills + 1) * batch_size) % s.lines_.length := by
        rw [Nat.add_mod, Nat.mod_mod, ← Nat.add_mod, Nat.succ_mul]; congr 1; omega
      rw [this]
    · intro b hb
      cases b with
      | zero =>
        refine ⟨batch, by simp, hbl, fun j hj => ?_⟩
        rw [hbatch j hj, Nat.zero_mul, Nat.add_zero]
      | succ b =>
        obtain ⟨bt, hbt, hbtl, hbtj⟩ := hrest b (by omega)
        refine ⟨bt, by rw [List.getElem?_cons_succ, hbt], hbtl, fun j hj => ?_⟩
        rw [hbtj j hj]
        have : ((s.lines_id_ + batch_size) % s.lines_.length + b * batch_size + j) % s.lines_.length
            = (s.lines_id_ + (b + 1) * batch_size + j) % s.lines_.length := by
          rw [Nat.add_assoc, Nat.add_mod, Nat.mod_mod, ← Nat.add_mod, Nat.succ_mul]
          congr 1; omega
        rw [this]

/-! ### Properties of the manifest cursor -/

/-- C4. For a non-empty manifest of `n` records, whatever permutation each shuffle
chooses and whether or not shuffle is enabled: from cursor 0 no run of iterations ever
fails the guard `CHECK_GT(lines_size, lines_id_)` (or indexes outside the manifest); and
in every pass `p = 0, 1, 2, ...` the `n` iterations start at cursor 0, use a permutation
of the manifest's records (each exactly once) and leave the cursor at 0. -/
theorem cursor_pass_coverage {α G : Type} (shuffle : G → List α → List α × G) (shuffleEnabled : Bool)
    (manifest : List α) (g : G)
    (hperm : ∀ g l, ((shuffle g l).1).Perm l) (hne : manifest ≠ []) :
    (∀ m, ∃ reads s, itemSteps shuffle shuffleEnabled manifest.length m
        { lines_ := manifest, lines_id_ := 0, prefetch_rng_ := g } = .ok (reads, s)) ∧
    (∀ p, ∃ before s1 reads s2,
      itemSteps shuffle shuffleEnabled manifest.length (p * manifest.length)
        { lines_ := manifest, lines_id_ := 0, prefetch_rng_ := g } = .ok (before, s1) ∧
      s1.lines_id_ = 0 ∧
      itemSteps shuffle shuffleEnabled manifest.length manifest.length s1 = .ok (reads, s2) ∧
      reads.Perm manifest ∧ reads = s1.lines_ ∧ s2.lines_id_ = 0 ∧ s2.lines_.Perm manifest) := by
  have hn : 0 < manifest.length := List.length_pos.2 hne
  have hpasses := fun p => itemSteps_passes shuffle hperm shuffleEnabled manifest.length hn p
    { lines_ := manifest, lines_id_ := 0, prefetch_rng_ := g } rfl rfl
  constructor
  · intro m
    obtain ⟨before, s1, hrun, -, -⟩ := hpasses m
    have hsplit : m * manifest.length = m + (m * manifest.length - m) := by
      have : m ≤ m * manifest.length := Nat.le_mul_of_pos_right m hn
      omega
    rw [hsplit, itemSteps_add] at hrun
    cases hm : itemSteps shuffle shuffleEnabled manifest.length m
        { lines_ := manifest, lines_id_ := 0, prefetch_rng_ := g } with
    | error e => rw [hm] at hrun; exact absurd hrun (by simp)
    | ok v => exact ⟨v.1, v.2, rfl⟩
  · intro p
    obtain ⟨before, s1, hrun, hid1, hperm1⟩ := hpasses p
    have hlen1 : s1.lines_.length = manifest.length := hperm1.length_eq
    have hpass := itemSteps_pass shuffle shuffleEnabled manifest.length manifest.length s1 hlen1 hn
      (by omega)
    rw [hid1, List.drop_zero] at hpass
    refine ⟨before, s1, s1.lines_, _, hrun, hid1, hpass, hperm1, rfl, ?_, ?_⟩
    · cases shuffleEnabled <;> simp [ShuffleImages]
    · cases shuffleEnabled
      · simpa using hperm1
      · simp only [ShuffleImages, if_true]
        exact (hperm _ _).trans hperm1

/-- Witness of C4: the manifest `10, 20, 30`, shuffle enabled with `rotateShuffle`, the
generator at 1; the second pass (`p = 1`) uses `20, 30, 10`. -/
theorem cursor_pass_coverage_witness :
    ((∀ (g : Nat) (l : List Nat), ((rotateShuffle g l).1).Perm l) ∧ [10, 20, 30] ≠ ([] : List Nat)) ∧
    (itemSteps rotateShuffle true 3 6 { lines_ := [10, 20, 30], lines_id_ := 0, prefetch_rng_ := 1 }).toOption.map
        (fun r => (r.1, r.2.lines_, r.2.lines_id_)) = some ([10, 20, 30, 20, 30, 10], [10, 20, 30], 0) ∧
    ∃ before s1 reads s2,
      itemSteps rotateShuffle true [10, 20, 30].length (1 * [10, 20, 30].length)
        { lines_ := [10, 20, 30], lines_id_ := 0, prefetch_rng_ := 1 } = .ok (before, s1) ∧
      s1.lines_id_ = 0 ∧
      itemSteps rotateShuffle true [10, 20, 30].length [10, 20, 30].length s1 = .ok (reads, s2) ∧
      reads.Perm [10, 20, 30] ∧ reads = s1.lines_ ∧ s2.lines_id_ = 0 ∧ s2.lines_.Perm [10, 20, 30] :=
  ⟨⟨fun g l => List.rotate_perm l g, by decide⟩, by decide,
    (cursor_pass_coverage rotateShuffle true [10, 20, 30] 1
      (fun g l => List.rotate_perm l g) (by decide)).2 1⟩

/-- C5. With shuffle disabled, a non-empty manifest of `n` records, any `batch_size` and
any starting cursor `start < n`: every sequence of batch fills succeeds, item `i` of the
`b`-th fill is the manifest record at file position `(start + b * batch_size + i) mod n`,
and the manifest is left in file order. -/
theorem deterministic_repetition {α G : Type} (shuffle : G → List α → List α × G)
    (manifest : List α) (g : G) (batch_size start fills : Nat)
    (hstart : start < manifest.length) :
    ∃ batches final,
      prefetchRun shuffle false batch_size fills
        { lines_ := manifest, lines_id_ := start, prefetch_rng_ := g } = .ok (batches, final) ∧
      final.lines_ = manifest ∧ batches.length = fills ∧
      ∀ b, b < fills → ∃ batch, batches[b]? = some batch ∧ batch.length = batch_size ∧
        ∀ i, i < batch_size → ∃ record,
          manifest[(start + b * batch_size + i) % manifest.length]? = some record ∧
          batch[i]? = some record := by
  obtain ⟨batches, hrun, hlen, hbatches⟩ := prefetchRun_noShuffle shuffle batch_size fills
    { lines_ := manifest, lines_id_ := start, prefetch_rng_ := g } hstart
  refine ⟨batches, _, hrun, rfl, hlen, fun b hb => ?_⟩
  obtain ⟨batch, hb1, hb2, hb3⟩ := hbatches b hb
  refine ⟨batch, hb1, hb2, fun i hi => ?_⟩
  have hidx : (start + b * batch_size + i) % manifest.length < manifest.length :=
    Nat.mod_lt _ (by omega)
  refine ⟨manifest[(start + b * batch_size + i) % manifest.length],
    List.getElem?_eq_getElem hidx, ?_⟩
  rw [hb3 i hi]
  exact List.getElem?_eq_getElem hidx

/-- Witness of C5: a 2-line manifest, `batch_size = 2`, start 0, two fills: each fill uses
record 0 then record 1. -/
theorem deterministic_repetition_witness :
    (0 < ["first", "second"].length) ∧
    (prefetchRun rotateShuffle false 2 2
        { lines_ := ["first", "second"], lines_id_ := 0, prefetch_rng_ := 0 }).toOption.map
      (fun r => (r.1, r.2.lines_)) =
        some ([["first", "second"], ["first", "second"]], ["first", "second"]) ∧
    ∃ batches final,
      prefetchRun rotateShuffle false 2 2
        { lines_ := ["first", "second"], lines_id_ := 0, prefetch_rng_ := 0 } = .ok (batches, final) ∧
      final.lines_ = ["first", "second"] ∧ batches.length = 2 ∧
      ∀ b, b < 2 → ∃ batch, batches[b]? = some batch ∧ batch.length = 2 ∧
        ∀ i, i < 2 → ∃ record,
          ["first", "second"][(0 + b * 2 + i) % ["first", "second"].length]? = some record ∧
          batch[i]? = some record :=
  ⟨by decide, by decide,
    deterministic_repetition rotateShuffle ["first", "second"] 0 2 0 2 (by decide)⟩

/-! ### Lemmas on the manifest reader -/

theorem readLinesFrom_line (l rest cur : List Char) (hl : '\n' ∉ l) :
    readLinesFrom (l ++ '\n' :: rest) cur = (cur ++ l) :: readLinesFrom rest [] := by
  induction l generalizing cur with
  | nil => simp [readLinesFrom]
  | cons c cs ih =>
    have hc : c ≠ '\n' := fun h => hl (by simp [h])
    have hcs : '\n' ∉ cs := fun h => hl (List.mem_cons_of_mem _ h)
    rw [List.cons_append, readLinesFrom, if_neg hc, ih _ hcs]
    simp

theorem readLinesFrom_last (l cur : List Char) (hl : '\n' ∉ l) (hne : cur ++ l ≠ []) :
    readLinesFrom l cur = [cur ++ l] := by
  induction l generalizing cur with
  | nil =>
    have : cur ≠ [] := by simpa using hne
    simp [readLinesFrom, this]
  | cons c cs ih =>
    have hc : c ≠ '\n' := fun h => hl (by simp [h])
    have hcs : '\n' ∉ cs := fun h => hl (List.mem_cons_of_mem _ h)
    simp only [readLinesFrom, if_neg hc]
    rw [ih _ hcs (by simp)]
    simp

/-- The lines `getline` delivers for a text in which every line is terminated. -/
theorem readLines_terminated (lines : List (List Char)) (h : ∀ l ∈ lines, '\n' ∉ l) :
    readLines ((lines.map (fun l => l ++ ['\n'])).flatten) = lines := by
  induction lines with
  | nil => simp [readLines, readLinesFrom]
  | cons l ls ih =>
    have hl := h l (List.mem_cons_self _ _)
    have hls : ∀ x ∈ ls, '\n' ∉ x := fun x hx => h x (List.mem_cons_of_mem _ hx)
    simp only [List.map_cons, List.flatten_cons, List.append_assoc, List.singleton_append,
      readLines]
    rw [readLinesFrom_line _ _ _ hl]
    have := ih hls
    simp only [readLines] at this
    rw [this]
    simp

/-- The same when the last line lacks its terminator, provided no line is empty. -/
theorem readLines_unterminated (lines : List (List Char)) (h : ∀ l ∈ lines, '\n' ∉ l)
    (hne : ∀ l ∈ lines, l ≠ []) :
    readLines ((lines.map (fun l => l ++ ['\n'])).flatten).dropLast = lines := by
  induction lines with
  | nil => simp [readLines, readLinesFrom]
  | cons l ls ih =>
    have hl := h l (List.mem_cons_self _ _)
    have hls : ∀ x ∈ ls, '\n' ∉ x := fun x hx => h x (List.mem_cons_of_mem _ hx)
    have hnels : ∀ x ∈ ls, x ≠ [] := fun x hx => hne x (List.mem_cons_of_mem _ hx)
    cases ls with
    | nil =>
      simp only [List.map_cons, List.map_nil, List.flatten_cons, List.flatten_nil,
        List.append_nil, readLines]
      rw [List.dropLast_concat, readLinesFrom_last l [] hl (by simpa using hne l (by simp))]
      simp
    | cons l2 ls2 =>
      have hF : ((l2 :: ls2).map (fun l => l ++ ['\n'])).flatten ≠ [] := by simp
      simp only [List.map_cons, List.flatten_cons] at hF ⊢
      rw [List.dropLast_append_of_ne_nil _ hF]
      simp only [List.append_assoc, List.singleton_append, readLines]
      rw [readLinesFrom_line _ _ _ hl]
      have := ih hls hnels
      simp only [List.map_cons, List.flatten_cons, readLines, List.append_assoc,
        List.singleton_append] at this
      rw [this]
      simp

theorem isdigit_not_isspace (c : Char) (h : isspace c = true) : isdigit c = false := by
  simp only [isspace, Bool.or_eq_true, decide_eq_true_eq] at h
  rcases h with ((((h | h) | h) | h) | h) | h <;> subst h <;> decide

theorem isdigit_not_sign (c : Char) (h : isdigit c = true) :
    c ≠ '-' ∧ c ≠ '+' ∧ isspace c = false := by
  refine ⟨?_, ?_, ?_⟩
  · rintro rfl; exact absurd h (by decide)
  · rintro rfl; exact absurd h (by decide)
  · cases hs : isspace c with
    | false => rfl
    | true => rw [isdigit_not_isspace c hs] at h; exact absurd h (by decide)

theorem digitChar_spec : ∀ k, k < 10 →
    isdigit (Nat.digitChar k) = true ∧ (Nat.digitChar k).toNat - '0'.toNat = k := by
  decide

theorem digitsValue_concat (ds : List Char) (d : Char) :
    digitsValue (ds ++ [d]) = 10 * digitsValue ds + (d.toNat - '0'.toNat) := by
  simp [digitsValue, List.foldl_append]

/-- The digits `Nat.toDigitsCore` puts in front of its accumulator: at least one, all
decimal digits, and their value is the number. -/
theorem toDigitsCore_spec (fuel n : Nat) (acc : List Char) (h : n < fuel) :
    ∃ pre, Nat.toDigitsCore 10 fuel n acc = pre ++ acc ∧ pre ≠ [] ∧
      (∀ c ∈ pre, isdigit c = true) ∧ digitsValue pre = n := by
  induction fuel generalizing n acc with
  | zero => omega
  | succ fuel ih =>
    have hd := digitChar_spec (n % 10) (Nat.mod_lt _ (by decide))
    simp only [Nat.toDigitsCore]
    by_cases h0 : n / 10 = 0
    · rw [if_pos h0]
      refine ⟨[Nat.digitChar (n % 10)], by simp, by simp, ?_, ?_⟩
      · intro c hc
        rw [List.mem_singleton.1 hc]; exact hd.1
      · have : digitsValue [Nat.digitChar (n % 10)] = (Nat.digitChar (n % 10)).toNat - '0'.toNat := by
          simp [digitsValue]
        rw [this, hd.2]
        omega
    · rw [if_neg h0]
      obtain ⟨pre, hpre, hne, hdig, hval⟩ := ih (n / 10) (Nat.digitChar (n % 10) :: acc) (by omega)
      refine ⟨pre ++ [Nat.digitChar (n % 10)], by rw [hpre]; simp, by simp, ?_, ?_⟩
      · intro c hc
        rcases List.mem_append.1 hc with hc | hc
        · exact hdig c hc
        · rw [List.mem_singleton.1 hc]; exact hd.1
      · rw [digitsValue_concat, hval, hd.2]
        omega

theorem toDigits_spec (n : Nat) :
    Nat.toDigits 10 n ≠ [] ∧ (∀ c ∈ Nat.toDigits 10 n, isdigit c = true) ∧
      digitsValue (Nat.toDigits 10 n) = n := by
  obtain ⟨pre, hpre, hne, hdig, hval⟩ := toDigitsCore_spec (n + 1) n [] (by omega)
  have : Nat.toDigits 10 n = pre := by simp [Nat.toDigits, hpre]
  rw [this]
  exact ⟨hne, hdig, hval⟩

theorem startsBlank_append (gap rest : List Char) (hne : gap ≠ []) (hgap : isBlank gap) :
    startsBlank (gap ++ rest) := by
  cases gap with
  | nil => exact absurd rfl hne
  | cons c cs =>
    intro d hd
    simp only [List.cons_append, List.head?_cons, Option.some.injEq] at hd
    rw [← hd]
    exact (hgap c (by simp)).1

theorem startsBlank_of_isBlank (ws : List Char) (h : isBlank ws) : startsBlank ws := by
  cases ws with
  | nil => intro d hd; simp at hd
  | cons c cs =>
    intro d hd
    simp only [List.head?_cons, Option.some.injEq] at hd
    rw [← hd]
    exact (h c (by simp)).1

/-- Extracting a string from `ws ++ tok ++ rest` stores the token and stops before
`rest`. -/
theorem extractString_token (ws tok rest str : List Char) (hws : ∀ c ∈ ws, isspace c = true)
    (htok : isToken tok) (hrest : startsBlank rest) :
    extractString { buf := ws ++ (tok ++ rest), failbit := false } str =
      (tok, { buf := rest, failbit := false }) := by
  obtain ⟨hne, hns⟩ := htok
  have htake : ∀ t : List Char, (∀ c ∈ t, isspace c = false) →
      List.takeWhile (fun d => !isspace d) (t ++ rest) = t ∧
      List.dropWhile (fun d => !isspace d) (t ++ rest) = rest := by
    intro t ht
    have hp : ∀ a ∈ t, (fun d => !isspace d) a = true := fun a ha => by simp [ht a ha]
    rw [List.takeWhile_append_of_pos hp, List.dropWhile_append_of_pos hp]
    cases rest with
    | nil => simp
    | cons r rs =>
      have hr : isspace r = true := hrest r rfl
      simp [List.takeWhile, List.dropWhile, hr]
  cases tok with
  | nil => exact absurd rfl hne
  | cons c cs =>
    have hc : isspace c = false := hns c (by simp)
    have hskip : List.dropWhile isspace (ws ++ (c :: cs ++ rest)) = c :: (cs ++ rest) := by
      rw [List.dropWhile_append_of_pos hws]
      simp [List.dropWhile, hc]
    have := htake (c :: cs) hns
    simp only [List.cons_append] at this
    simp only [extractString, Bool.false_eq_true, if_false, hskip]
    rw [this.1, this.2]

/-- Extracting an `int` from `ws ++ decimal z ++ rest` stores `z` when `z` fits an `int`,
and stops before `rest`. -/
theorem extractInt_decimal (ws rest : List Char) (z v : Int) (hws : ∀ c ∈ ws, isspace c = true)
    (hz : INT_MIN ≤ z ∧ z ≤ INT_MAX) (hrest : startsBlank rest) :
    extractInt { buf := ws ++ (decimal z ++ rest), failbit := false } v =
      (z, { buf := rest, failbit := false }) := by
  have htake : ∀ t : List Char, (∀ c ∈ t, isdigit c = true) →
      List.takeWhile isdigit (t ++ rest) = t ∧ List.dropWhile isdigit (t ++ rest) = rest := by
    intro t ht
    rw [List.takeWhile_append_of_pos ht, List.dropWhile_append_of_pos ht]
    cases rest with
    | nil => simp
    | cons r rs =>
      have hr : isdigit r = false := isdigit_not_isspace r (hrest r rfl)
      simp [List.takeWhile, List.dropWhile, hr]
  simp only [extractInt, Bool.false_eq_true, if_false]
  rw [List.dropWhile_append_of_pos hws]
  cases z with
  | ofNat n =>
    obtain ⟨hne, hdig, hval⟩ := toDigits_spec n
    simp only [decimal]
    obtain ⟨c, cs, hcs⟩ := List.exists_cons_of_ne_nil hne
    have hdig' : ∀ d ∈ c :: cs, isdigit d = true := by rw [← hcs]; exact hdig
    have hval' : digitsValue (c :: cs) = n := by rw [← hcs]; exact hval
    obtain ⟨hm, hp, hsp⟩ := isdigit_not_sign c (hdig' c (by simp))
    rw [hcs]
    have hskip : List.dropWhile isspace (c :: cs ++ rest) = c :: (cs ++ rest) := by
      simp [List.dropWhile, hsp]
    have ht := htake (c :: cs) hdig'
    simp only [List.cons_append] at ht
    have hnosign : ¬ (c = '-' ∨ c = '+') := by
      rintro (h | h)
      · exact hm h
      · exact hp h
    have h1 : ¬ ((n : Int) < INT_MIN) := by
      have := hz.1; simp only [Int.ofNat_eq_coe] at this; omega
    have h2 : ¬ (INT_MAX < (n : Int)) := by
      have := hz.2; simp only [Int.ofNat_eq_coe] at this; omega
    have hdec : decide (c = '-') = false := by simp [hm]
    simp only [hskip, if_neg hnosign, ht.1, ht.2, hval', hdec, Bool.false_eq_true, if_false,
      if_neg h1, if_neg h2, reduceCtorEq]
    rfl
  | negSucc n =>
    obtain ⟨hne, hdig, hval⟩ := toDigits_spec (n + 1)
    simp only [decimal]
    have hsp : isspace '-' = false := by decide
    have hskip : List.dropWhile isspace ('-' :: Nat.toDigits 10 (n + 1) ++ rest) =
        '-' :: (Nat.toDigits 10 (n + 1) ++ rest) := by
      simp [List.dropWhile, hsp]
    have ht := htake (Nat.toDigits 10 (n + 1)) hdig
    have h1 : ¬ (-((n + 1 : Nat) : Int) < INT_MIN) := by
      have := hz.1; simp only [Int.negSucc_eq] at this; push_cast; omega
    have h2 : ¬ (INT_MAX < -((n + 1 : Nat) : Int)) := by
      have := hz.2; simp only [Int.negSucc_eq] at this; push_cast; omega
    simp only [hskip, true_or, if_true, decide_True, ht.1, ht.2, hval, if_neg hne, if_neg h1,
      if_neg h2]
    simp [Int.negSucc_eq]

theorem decimal_spec (z : Int) :
    decimal z ≠ [] ∧ ∀ c ∈ decimal z, isspace c = false := by
  cases z with
  | ofNat n =>
    obtain ⟨hne, hdig, -⟩ := toDigits_spec n
    exact ⟨hne, fun c hc => (isdigit_not_sign c (hdig c hc)).2.2⟩
  | negSucc n =>
    obtain ⟨-, hdig, -⟩ := toDigits_spec (n + 1)
    refine ⟨by simp [decimal], fun c hc => ?_⟩
    simp only [decimal, List.mem_cons] at hc
    rcases hc with rfl | hc
    · decide
    · exact (isdigit_not_sign c (hdig c hc)).2.2

/-- The four coordinate extractions on `gap ++ x1 ++ gap3 ++ y1 ++ gap4 ++ x2 ++ gap5 ++
y2 ++ trail`. -/
theorem extractInt_coordinates (gap gap3 gap4 gap5 trail : List Char) (x1 y1 x2 y2 v : Int)
    (hgap : isBlank gap) (h3 : gap3 ≠ [] ∧ isBlank gap3) (h4 : gap4 ≠ [] ∧ isBlank gap4)
    (h5 : gap5 ≠ [] ∧ isBlank gap5) (htrail : isBlank trail)
    (hx1 : INT_MIN ≤ x1 ∧ x1 ≤ INT_MAX) (hy1 : INT_MIN ≤ y1 ∧ y1 ≤ INT_MAX)
    (hx2 : INT_MIN ≤ x2 ∧ x2 ≤ INT_MAX) (hy2 : INT_MIN ≤ y2 ∧ y2 ≤ INT_MAX) :
    extractInt { buf := gap ++ (decimal x1 ++ (gap3 ++ (decimal y1 ++ (gap4 ++
        (decimal x2 ++ (gap5 ++ (decimal y2 ++ trail))))))), failbit := false } v =
      (x1, { buf := gap3 ++ (decimal y1 ++ (gap4 ++ (decimal x2 ++ (gap5 ++
        (decimal y2 ++ trail))))), failbit := false }) ∧
    extractInt { buf := gap3 ++ (decimal y1 ++ (gap4 ++ (decimal x2 ++ (gap5 ++
        (decimal y2 ++ trail))))), failbit := false } v =
      (y1, { buf := gap4 ++ (decimal x2 ++ (gap5 ++ (decimal y2 ++ trail))), failbit := false }) ∧
    extractInt { buf := gap4 ++ (decimal x2 ++ (gap5 ++ (decimal y2 ++ trail))), failbit := false }
        v =
      (x2, { buf := gap5 ++ (decimal y2 ++ trail), failbit := false }) ∧
    extractInt { buf := gap5 ++ (decimal y2 ++ trail), failbit := false } v =
      (y2, { buf := trail, failbit := false }) :=
  ⟨extractInt_decimal gap _ x1 v (fun c hc => (hgap c hc).1) hx1 (startsBlank_append _ _ h3.1 h3.2),
   extractInt_decimal gap3 _ y1 v (fun c hc => (h3.2 c hc).1) hy1 (startsBlank_append _ _ h4.1 h4.2),
   extractInt_decimal gap4 _ x2 v (fun c hc => (h4.2 c hc).1) hx2 (startsBlank_append _ _ h5.1 h5.2),
   extractInt_decimal gap5 _ y2 v (fun c hc => (h5.2 c hc).1) hy2 (startsBlank_of_isBlank _ htrail)⟩

/-- The loop body on a well-formed line yields the record the line was written for. -/
theorem parseLine_manifestLine (label_type : LabelType) (uninit : Int) (item : SEGITEMS)
    (lay : Layout) (h : WellFormedLine label_type item lay) :
    parseLine label_type uninit (manifestLine label_type item lay) = item := by
  obtain ⟨himg, hseg, hlead, h1, h3, h4, h5, htrail, hx1, hy1, hx2, hy2⟩ := h
  obtain ⟨c1, c2, c3, c4⟩ := extractInt_coordinates lay.gap1 lay.gap3 lay.gap4 lay.gap5 lay.trail
    item.x1 item.y1 item.x2 item.y2 uninit h1.2 h3 h4 h5 htrail hx1 hy1 hx2 hy2
  by_cases hlt : label_type ≠ LabelType.NONE
  · rw [if_pos hlt] at hseg
    obtain ⟨hsegtok, hg2ne, hg2⟩ := hseg
    obtain ⟨d1, -, -, -⟩ := extractInt_coordinates lay.gap2 lay.gap3 lay.gap4 lay.gap5 lay.trail
      item.x1 item.y1 item.x2 item.y2 uninit hg2 h3 h4 h5 htrail hx1 hy1 hx2 hy2
    have e0 := extractString_token lay.lead item.imgfn
      (lay.gap1 ++ (item.segfn ++ (lay.gap2 ++ (decimal item.x1 ++ (lay.gap3 ++
        (decimal item.y1 ++ (lay.gap4 ++ (decimal item.x2 ++ (lay.gap5 ++
          (decimal item.y2 ++ lay.trail))))))))))
      [] (fun c hc => (hlead c hc).1) himg (startsBlank_append _ _ h1.1 h1.2)
    have e1 := extractString_token lay.gap1 item.segfn
      (lay.gap2 ++ (decimal item.x1 ++ (lay.gap3 ++
        (decimal item.y1 ++ (lay.gap4 ++ (decimal item.x2 ++ (lay.gap5 ++
          (decimal item.y2 ++ lay.trail))))))))
      [] (fun c hc => (h1.2 c hc).1) hsegtok (startsBlank_append _ _ hg2ne hg2)
    simp only [parseLine, manifestLine, if_pos hlt, List.append_assoc, e0, e1, d1, c2, c3, c4]
  · rw [if_neg hlt] at hseg
    have e0 := extractString_token lay.lead item.imgfn
      (lay.gap1 ++ (decimal item.x1 ++ (lay.gap3 ++
        (decimal item.y1 ++ (lay.gap4 ++ (decimal item.x2 ++ (lay.gap5 ++
          (decimal item.y2 ++ lay.trail))))))))
      [] (fun c hc => (hlead c hc).1) himg (startsBlank_append _ _ h1.1 h1.2)
    simp only [parseLine, manifestLine, if_neg hlt, List.nil_append, e0, c1, c2, c3, c4]
    rw [← hseg]

/-- A well-formed line is not empty and holds no line terminator. -/
theorem manifestLine_spec (label_type : LabelType) (item : SEGITEMS) (lay : Layout)
    (h : WellFormedLine label_type item lay) :
    manifestLine label_type item lay ≠ [] ∧ '\n' ∉ manifestLine label_type item lay := by
  obtain ⟨himg, hseg, hlead, h1, h3, h4, h5, htrail, -, -, -, -⟩ := h
  have hnl : isspace '\n' = true := by decide
  have hblank : ∀ ws : List Char, isBlank ws → '\n' ∉ ws := fun ws hws hmem => (hws _ hmem).2 rfl
  have htoken : ∀ tok : List Char, (∀ c ∈ tok, isspace c = false) → '\n' ∉ tok := fun tok htok hmem => by
    have := htok _ hmem; rw [hnl] at this; exact absurd this (by decide)
  have hdec : ∀ z, '\n' ∉ decimal z := fun z => htoken _ (decimal_spec z).2
  constructor
  · have := himg.1
    simp [manifestLine, this]
  · have hsegpart : '\n' ∉ (if label_type ≠ LabelType.NONE then item.segfn ++ lay.gap2 else []) := by
      by_cases hlt : label_type ≠ LabelType.NONE
      · rw [if_pos hlt] at hseg ⊢
        simp only [List.mem_append, not_or]
        exact ⟨htoken _ hseg.1.2, hblank _ hseg.2.2⟩
      · rw [if_neg hlt]; simp
    simp only [manifestLine, List.mem_append, not_or]
    exact ⟨hblank _ hlead, htoken _ himg.2, hblank _ h1.2, hsegpart, hdec _, hblank _ h3.2, hdec _,
      hblank _ h4.2, hdec _, hblank _ h5.2, hdec _, hblank _ htrail⟩

/-! ### Properties of the manifest loader -/

/-- C7. For every manifest file whose lines are whitespace-separated tokens
`<image_path> [<seg_path_or_label>] <x1> <y1> <x2> <y2>` (the coordinates being `int`
values, written in decimal, negative ones included; the last line with or without its
terminator), the loader yields exactly one record per line, in file order: the image path
is the first token, `segfn` the second token when `label_type` is not NONE and empty when
it is NONE (the line then has no second token), and `x1, y1, x2, y2` the four integers. -/
theorem well_formed_manifest (label_type : LabelType) (uninit : Int)
    (entries : List (SEGITEMS × Layout)) (finalNewline : Bool)
    (hwf : ∀ e ∈ entries, WellFormedLine label_type e.1 e.2) :
    loadManifest label_type uninit (manifestFile label_type entries finalNewline) =
      entries.map (fun e => e.1) := by
  have hlines : readLines (manifestFile label_type entries finalNewline) =
      entries.map (fun e => manifestLine label_type e.1 e.2) := by
    have hnl : ∀ l ∈ entries.map (fun e => manifestLine label_type e.1 e.2), '\n' ∉ l := by
      intro l hl
      obtain ⟨e, he, rfl⟩ := List.mem_map.1 hl
      exact (manifestLine_spec label_type e.1 e.2 (hwf e he)).2
    have hne : ∀ l ∈ entries.map (fun e => manifestLine label_type e.1 e.2), l ≠ [] := by
      intro l hl
      obtain ⟨e, he, rfl⟩ := List.mem_map.1 hl
      exact (manifestLine_spec label_type e.1 e.2 (hwf e he)).1
    have hmap : entries.map (fun e => manifestLine label_type e.1 e.2 ++ ['\n']) =
        (entries.map (fun e => manifestLine label_type e.1 e.2)).map (fun l => l ++ ['\n']) := by
      rw [List.map_map]; rfl
    unfold manifestFile
    cases finalNewline with
    | true => rw [if_pos rfl, hmap]; exact readLines_terminated _ hnl
    | false =>
      rw [if_neg (by decide), hmap]; exact readLines_unterminated _ hnl hne
  unfold loadManifest
  rw [hlines, List.map_map]
  apply List.map_congr_left
  intro e he
  exact parseLine_manifestLine label_type uninit e.1 e.2 (hwf e he)

/-- Witness of C7: the two sample lines in label mode PIXEL, the last one unterminated. -/
theorem well_formed_manifest_witness :
    (∀ e ∈ sampleEntries, WellFormedLine LabelType.PIXEL e.1 e.2) ∧
    manifestFile LabelType.PIXEL sampleEntries false =
      "a.jpg m.png\t -3 0 12 5\r\n  b.jpg 7 10 20 2147483647 -2147483648".toList ∧
    loadManifest LabelType.PIXEL 99 (manifestFile LabelType.PIXEL sampleEntries false) =
      sampleEntries.map (fun e => e.1) := by
  have hwf : ∀ e ∈ sampleEntries, WellFormedLine LabelType.PIXEL e.1 e.2 := by
    intro e he
    simp only [sampleEntries, List.mem_cons, List.mem_singleton, List.not_mem_nil, or_false] at he
    rcases he with rfl | rfl <;> decide
  exact ⟨hwf, by decide, well_formed_manifest LabelType.PIXEL 99 sampleEntries false hwf⟩

/-- Counterexample to C6 as stated: in label mode PIXEL a manifest with a line of too few
coordinates, a blank line, a line whose first coordinate is not a number and a line
without its second token is loaded without any failure, one record per line. -/
theorem malformed_lines_not_fatal :
    (DataLayerSetUp rotateShuffle ⟨0, 0, LabelType.PIXEL, false, false, 0⟩
        "a.jpg m.png 1 2\n\nb.jpg m.png x 0 1 1\nc.jpg 0 0 5 5\n".toList 99 0 0).toOption.map
      (fun s => (s.lines_, s.lines_id_)) =
    some ([⟨"a.jpg".toList, "m.png".toList, 1, 2, 99, 99⟩,
           ⟨[], [], 99, 99, 99, 99⟩,
           ⟨"b.jpg".toList, "m.png".toList, 0, 99, 99, 99⟩,
           ⟨"c.jpg".toList, "0".toList, 0, 5, 5, 99⟩], 0) := by
  decide

/-- C6, amended. Malformed lines are not fatal: the loader checks no extraction and
pushes exactly one record for every line of the file, whatever the line holds (for a line
of whitespace only: empty paths and four untouched coordinates). Lines 31-91 of
`DataLayerSetUp` end in a fatal error only for a configured mean file, inconsistent
`new_height`/`new_width`, or a random skip that the number of lines does not exceed;
otherwise they succeed with the records of all lines. -/
theorem manifest_lines_unchecked {G : Type} (shuffle : G → List SEGITEMS → List SEGITEMS × G)
    (param : SetupParam) (file : List Char) (uninit : Int) (seeded : G) (draw : Nat)
    (hperm : ∀ g l, ((shuffle g l).1).Perm l) :
    (loadManifest param.label_type uninit file).length = (readLines file).length ∧
    (∀ line ∈ readLines file, parseLine param.label_type uninit line ∈
      loadManifest param.label_type uninit file) ∧
    (∀ line : List Char, (∀ c ∈ line, isspace c = true) →
      parseLine param.label_type uninit line = ⟨[], [], uninit, uninit, uninit, uninit⟩) ∧
    (DataLayerSetUp shuffle param file uninit seeded draw = .error .fatal ↔
      (param.has_mean_file = true ∨
        ¬ ((param.new_height = 0 ∧ param.new_width = 0) ∨
            (param.new_height > 0 ∧ param.new_width > 0)) ∨
        (param.rand_skip ≠ 0 ∧ (readLines file).length ≤ draw % param.rand_skip))) ∧
    (DataLayerSetUp shuffle param file uninit seeded draw = .error .fatal ∨
      ∃ s, DataLayerSetUp shuffle param file uninit seeded draw = .ok s ∧
        s.lines_.Perm ((readLines file).map (parseLine param.label_type uninit))) := by
  have hblank : ∀ line : List Char, (∀ c ∈ line, isspace c = true) →
      parseLine param.label_type uninit line = ⟨[], [], uninit, uninit, uninit, uninit⟩ := by
    intro line hline
    have hdrop : List.dropWhile isspace line = [] := by
      have := @List.dropWhile_append_of_pos Char isspace line [] hline
      simpa using this
    have e0 : extractString { buf := line, failbit := false } [] =
        ([], { buf := [], failbit := true }) := by
      simp [extractString, hdrop]
    have e1 : extractString { buf := [], failbit := true } [] =
        ([], { buf := [], failbit := true }) := by
      simp [extractString]
    have e2 : extractInt { buf := [], failbit := true } uninit =
        (uninit, { buf := [], failbit := true }) := by
      simp [extractInt]
    by_cases hlt : param.label_type ≠ LabelType.NONE
    · simp only [parseLine, e0, if_pos hlt, e1, e2]
    · simp only [parseLine, e0, if_neg hlt, e2]
  have hlen : (if param.shuffle = true then
        ShuffleImages shuffle
          { lines_ := loadManifest param.label_type uninit file, lines_id_ := 0,
            prefetch_rng_ := seeded }
      else { lines_ := loadManifest param.label_type uninit file, lines_id_ := 0,
             prefetch_rng_ := seeded }).lines_.Perm
      ((readLines file).map (parseLine param.label_type uninit)) := by
    split_ifs
    · exact hperm _ _
    · exact List.Perm.refl _
  refine ⟨by simp [loadManifest], fun line hl => List.mem_map.2 ⟨line, hl, rfl⟩, hblank, ?_, ?_⟩
  · simp only [DataLayerSetUp]
    by_cases hmean : param.has_mean_file = true
    · simp [hmean]
    · by_cases hsize : (param.new_height = 0 ∧ param.new_width = 0) ∨
          (param.new_height > 0 ∧ param.new_width > 0)
      · have hm : ¬ (param.has_mean_file ≠ false) := by simpa using hmean
        rw [if_neg hm, if_neg (not_not.2 hsize)]
        have hl := hlen.length_eq
        rw [List.length_map] at hl
        simp only [randSkip, hl]
        by_cases hskip : param.rand_skip ≠ 0
        · rw [if_pos hskip]
          by_cases hgt : (readLines file).length > draw % param.rand_skip
          · rw [if_pos hgt]
            simp [hmean, hsize]; omega
          · rw [if_neg hgt]
            simp [hmean, hsize, hskip]; omega
        · rw [if_neg hskip]
          simp [hmean, hsize, not_not.1 hskip]
      · have hm : ¬ (param.has_mean_file ≠ false) := by simpa using hmean
        rw [if_neg hm, if_pos hsize]
        simp [hsize]
  · simp only [DataLayerSetUp]
    by_cases h1 : param.has_mean_file ≠ false
    · rw [if_pos h1]; exact Or.inl rfl
    · rw [if_neg h1]
      by_cases h2 : ¬ ((param.new_height = 0 ∧ param.new_width = 0) ∨
          (param.new_height > 0 ∧ param.new_width > 0))
      · rw [if_pos h2]; exact Or.inl rfl
      · rw [if_neg h2]
        generalize hs0 : (if param.shuffle = true then
            ShuffleImages shuffle
              { lines_ := loadManifest param.label_type uninit file, lines_id_ := 0,
                prefetch_rng_ := seeded }
          else { lines_ := loadManifest param.label_type uninit file, lines_id_ := 0,
                 prefetch_rng_ := seeded }) = s0 at hlen ⊢
        cases hr : randSkip param.rand_skip draw s0.lines_.length with
        | error e =>
          left
          simp only [randSkip] at hr
          split_ifs at hr
          cases hr
          rfl
        | ok skip => exact Or.inr ⟨_, rfl, hlen⟩

/-- Witness of the amended C6: the malformed manifest of the counterexample, shuffle
enabled with `rotateShuffle`. -/
theorem manifest_lines_unchecked_witness :
    (∀ (g : Nat) (l : List SEGITEMS), ((rotateShuffle g l).1).Perm l) ∧
    (loadManifest LabelType.PIXEL 99 "a.jpg m.png 1 2\n\nb.jpg m.png x 0 1 1\n".toList).length =
      (readLines "a.jpg m.png 1 2\n\nb.jpg m.png x 0 1 1\n".toList).length ∧
    (readLines "a.jpg m.png 1 2\n\nb.jpg m.png x 0 1 1\n".toList).length = 3 :=
  ⟨fun g l => List.rotate_perm l g,
    (manifest_lines_unchecked rotateShuffle ⟨0, 0, LabelType.PIXEL, false, true, 0⟩
      "a.jpg m.png 1 2\n\nb.jpg m.png x 0 1 1\n".toList 99 1 0
      (fun g l => List.rotate_perm l g)).1, by decide⟩

end WindowClsDataLayer
